import Mathlib

/-!
Verification of the device-protocol client and polling/reconciliation core of
the `orei_matrix` integration (files `api.py`, `coordinator.py`, `const.py`).

Modelling conventions:
* wire strings are `List Char`;
* Python `dict`s are association lists (Python dict keys are unique, which
  appears as `Nodup` hypotheses where a proof needs it);
* Python exceptions are modelled as `Option` (`none` = raised) or as explicit
  error constructors in a result type;
* lower-casing is `Char.toLower` (ASCII case folding, which covers the ASCII
  markers and keywords used by the protocol).
-/

namespace OreiMatrix

/-! ### Basic character and list utilities shared by the protocol model -/

/-- The whitespace characters stripped by Python's `str.strip()` (ASCII set). -/
def isSpc (c : Char) : Bool :=
  c == ' ' || c == '\t' || c == '\n' || c == '\r' || c == '\x0B' || c == '\x0C'

/-- Python `str.lstrip()` (default whitespace). -/
def stripL (l : List Char) : List Char := l.dropWhile isSpc

/-- Python `str.rstrip()` (default whitespace). -/
def stripR (l : List Char) : List Char := List.rdropWhile isSpc l

/-- Python `str.strip()` (default whitespace). -/
def pystrip (l : List Char) : List Char := stripR (stripL l)

/-- Python `str.split("\n")`: split on every newline, keeping empty pieces.
`splitNL [] = [[]]`, just as `"".split("\n") == [""]`. -/
def splitNL : List Char → List (List Char)
  | [] => [[]]
  | c :: cs =>
    if c = '\n' then [] :: splitNL cs
    else
      match splitNL cs with
      | [] => [[c]]
      | l :: ls => (c :: l) :: ls

/-- `isPfx n h` decides whether `n` is a prefix of `h` (Python `startswith`). -/
def isPfx : List Char → List Char → Bool
  | [], _ => true
  | _ :: _, [] => false
  | a :: as, b :: bs => a == b && isPfx as bs

/-- `containsSub n h` decides whether `n` occurs contiguously in `h`
(Python `n in h` on strings). -/
def containsSub (n : List Char) : List Char → Bool
  | [] => isPfx n []
  | c :: t => isPfx n (c :: t) || containsSub n t

/-! ### Codec: command encoding

`api.py`, `_send_command_locked` (lines 290-292):
```python
if not command.endswith("!"):
    command = f"{command}!"
```
-/

/-- Wire encoding of a command: append the protocol terminator `!` unless the
command already ends with it. -/
def encodeCommand (command : List Char) : List Char :=
  if command.getLast? = some '!' then command else command ++ ['!']

/-! ### Codec: response classification

`api.py`, `_send_command_locked` (lines 321-333):
```python
if response.startswith("E00"):
    response = response[3:].lstrip("\r\n ")
elif response.startswith("E0") and len(response) > 2 and response[2].isdigit():
    error_code = response[:3]
    if error_code != "E00":
        error_msg = f"Command error {error_code}: {response}"
        raise OreiMatrixCommandError(error_msg)
return response
```
-/

/-- Result of classifying a device response: a success payload, or a raised
`OreiMatrixCommandError` carrying its message. -/
inductive CommandResult where
  | success (payload : List Char)
  | commandError (message : List Char)
  deriving DecidableEq

/-- The character set stripped after the `E00` marker: `lstrip("\r\n ")`. -/
def e00StripSet (c : Char) : Bool := c == '\r' || c == '\n' || c == ' '

/-- Classification of a device response string, translated from
`_send_command_locked`. -/
def classifyResponse (response : List Char) : CommandResult :=
  if isPfx ['E', '0', '0'] response then
    .success ((response.drop 3).dropWhile e00StripSet)
  else if isPfx ['E', '0'] response && decide (response.length > 2) &&
      (match response.get? 2 with | some c => c.isDigit | none => false) then
    let errorCode := response.take 3
    if errorCode ≠ ['E', '0', '0'] then
      .commandError (("Command error ".data ++ errorCode) ++ (": ".data ++ response))
    else
      .success response
  else
    .success response

/-- What claim C4 literally says happens to an `E00` response: the marker and
any following LINE BREAKS (only) are stripped and the remainder returned.  The
source additionally strips spaces (`lstrip("\r\n ")`). -/
def e00StripClaim (response : List Char) : List Char :=
  (response.drop 3).dropWhile (fun c => c == '\r' || c == '\n')

/-- The E00 clause of claim C4 as stated, as a proposition about
`classifyResponse`; refuted below at the concrete response `"E00 x"`. -/
def c4ClaimE00 : Prop :=
  ∀ response : List Char, isPfx ['E', '0', '0'] response = true →
    classifyResponse response = .success (e00StripClaim response)

/-! ### Dispatcher: locked send with retries

`api.py`, `_send_command_locked` (lines 281-350).  The loop runs
`retries = MAX_RETRIES if retry else 1` attempts.  Each attempt:
`_ensure_connected()` (which, when the connection is down, calls
`disconnect()` then `connect()`; a `connect()` failure raises
`OreiMatrixConnectionError`, which no `except` clause of the loop catches),
then encodes/rate-limits/flushes, writes the command, and reads the response.
`except (OSError, ConnectionError, BrokenPipeError)` records the error,
drops the connection (`disconnect()`), and sleeps `COMMAND_RETRY_DELAY` when
attempts remain; `except asyncio.TimeoutError` records the error and sleeps
without dropping the connection.  A classified `OreiMatrixCommandError` is
raised by the body and caught by neither handler, so it propagates at once.
After the loop, `raise last_error` (or `"Unknown error"` when no attempt ran).
Rate limiting, the pre-write buffer flush and encoding do not affect this
control flow and are not part of the model. -/

/-- Kind of transient failure remembered in `last_error`. -/
inductive TransientKind where
  | ioFailure
  | readTimeout
  deriving DecidableEq

/-- What the transport/device does in the body of one attempt:
an I/O error while writing or reading, a read timeout, or a response. -/
inductive AttemptBody where
  | ioFailure
  | readTimeout
  | deviceResponse (r : List Char)
  deriving DecidableEq

/-- Per-attempt environment behaviour: whether `connect()` (invoked by
`_ensure_connected` when the connection is down) would succeed, and what the
attempt body does once connected. -/
structure AttemptSpec where
  connectOk : Bool
  body : AttemptBody

/-- Final outcome of `_send_command_locked`. -/
inductive SendOutcome where
  | success (payload : List Char)
  | commandError (message : List Char)
  | connectionError (kind : TransientKind)
  | connectFailure
  | unknownError
  deriving DecidableEq

/-- Observable transport actions, used to state reconnect/retry behaviour. -/
inductive DispatchAction where
  | disconnect
  | connect
  | write
  | sleepRetry
  deriving DecidableEq

/-- Whether an attempt body is a transient (retried) failure. -/
def isTransient : AttemptBody → Bool
  | .ioFailure => true
  | .readTimeout => true
  | .deviceResponse _ => false

/-- The `last_error` kind recorded for a transient attempt body (junk value on
a response body, which is never transient). -/
def transientKind : AttemptBody → TransientKind
  | .ioFailure => .ioFailure
  | .readTimeout => .readTimeout
  | .deviceResponse _ => .ioFailure

/-- The retry loop of `_send_command_locked`, driven by the environment script
`f` (attempt number `i` behaves as `f i`).  `fuel` is the number of attempts
remaining, `connected` the connection state, `lastErr` the remembered
`last_error`.  Returns the outcome and the trace of transport actions. -/
def sendLoop (f : Nat → AttemptSpec) :
    Nat → Nat → Bool → Option TransientKind → SendOutcome × List DispatchAction
  | _, 0, _, lastErr =>
    (match lastErr with
     | some k => .connectionError k
     | none => .unknownError, [])
  | i, fuel + 1, connected, _lastErr =>
    if connected = false ∧ (f i).connectOk = false then
      (.connectFailure, [.disconnect])
    else
      let ens : List DispatchAction := if connected then [] else [.disconnect, .connect]
      match (f i).body with
      | .deviceResponse r =>
        match classifyResponse r with
        | .success p => (.success p, ens ++ [.write])
        | .commandError m => (.commandError m, ens ++ [.write])
      | .ioFailure =>
        let rest := sendLoop f (i + 1) fuel false (some .ioFailure)
        (rest.1,
          ens ++ [.write, .disconnect] ++
            (if fuel = 0 then [] else [.sleepRetry]) ++ rest.2)
      | .readTimeout =>
        let rest := sendLoop f (i + 1) fuel connected (some .readTimeout)
        (rest.1,
          ens ++ [.write] ++ (if fuel = 0 then [] else [.sleepRetry]) ++ rest.2)

/-- The transport-action trace of a send whose attempts all fail with I/O
errors, starting disconnected: every attempt reopens the connection
(`disconnect`, `connect`), writes, drops the connection in the handler, and
sleeps the inter-attempt delay whenever attempts remain. -/
def ioTrace : Nat → List DispatchAction
  | 0 => []
  | 1 => [.disconnect, .connect, .write, .disconnect]
  | n + 2 => [.disconnect, .connect, .write, .disconnect, .sleepRetry] ++ ioTrace (n + 1)

/-! ### HTTP name queries

`api.py`, `get_input_names` / `get_output_names` (lines 129-159):
```python
async with self._http_lock:
    try:
        response = await self._http_request({"comhead": "get input status"})
        names = response.get("inname", [])
        if names and len(names) == NUM_INPUTS:
            return names
        return [f"Input{i}" for i in range(1, NUM_INPUTS + 1)]
    except OreiMatrixError as err:
        return [f"Input{i}" for i in range(1, NUM_INPUTS + 1)]
```
`_http_request` wraps every transport/parse problem in `OreiMatrixError`
subclasses and otherwise returns the parsed JSON body (`response.json()`),
which need not be an object and whose `inname`/`name` member need not be a
list — the Python code is dynamically typed, so the model carries a JSON
value and mirrors `dict.get`, truthiness and `len()` (which raises
`TypeError` on numbers/booleans/null). `NUM_INPUTS = NUM_OUTPUTS = 8`
(`const.py`). -/

/-- A parsed JSON value as returned by `response.json()`. -/
inductive Json where
  | jnull
  | jbool (b : Bool)
  | jnum (n : Int)
  | jstr (s : String)
  | jarr (xs : List Json)
  | jobj (fields : List (String × Json))

/-- Python exceptions that can escape `get_input_names` / `get_output_names`
(they are not `OreiMatrixError`, so the `except` clause does not catch them). -/
inductive PyError where
  | typeError
  | attributeError
  deriving DecidableEq

/-- `dict` lookup on a JSON object (`response.get(key)`), first binding wins
(Python dict keys are unique). -/
def jsonGet : List (String × Json) → String → Option Json
  | [], _ => none
  | (k, v) :: rest, key => if k = key then some v else jsonGet rest key

/-- Python truthiness of a JSON value. -/
def jsonTruthy : Json → Bool
  | .jnull => false
  | .jbool b => b
  | .jnum n => n != 0
  | .jstr s => s != ""
  | .jarr xs => !xs.isEmpty
  | .jobj fields => !fields.isEmpty

/-- Python `len()` of a JSON value: defined for strings, arrays and objects,
`TypeError` (`none`) otherwise. -/
def jsonLen : Json → Option Nat
  | .jstr s => some s.length
  | .jarr xs => some xs.length
  | .jobj fields => some fields.length
  | _ => none

/-- The outcome of the HTTP exchange as seen by `get_input_names`:
either `_http_request` raised an `OreiMatrixError`, or it returned a parsed
JSON body. -/
inductive HttpOutcome where
  | oreiError
  | response (body : Json)

/-- `[f"Input{i}" for i in range(1, NUM_INPUTS + 1)]`. -/
def defaultInputNames : Json :=
  .jarr ((List.range 8).map fun i => .jstr ("Input" ++ toString (i + 1)))

/-- `[f"Output{i}" for i in range(1, NUM_OUTPUTS + 1)]`. -/
def defaultOutputNames : Json :=
  .jarr ((List.range 8).map fun i => .jstr ("Output" ++ toString (i + 1)))

/-- Shared body of `get_input_names`/`get_output_names`: look up `key` in the
response (default `[]`), return it when truthy and of `len` 8, the synthesized
defaults otherwise; `TypeError` when `len()` is applied to an unsized truthy
value, `AttributeError` when the body is not an object (`response.get`). -/
def getNames (key : String) (defaults : Json) : HttpOutcome → Except PyError Json
  | .oreiError => .ok defaults
  | .response body =>
    match body with
    | .jobj fields =>
      let names := (jsonGet fields key).getD (.jarr [])
      if jsonTruthy names then
        match jsonLen names with
        | none => .error .typeError
        | some n => if n = 8 then .ok names else .ok defaults
      else
        .ok defaults
    | _ => .error .attributeError

/-- `get_input_names` over an HTTP outcome. -/
def get_input_names (o : HttpOutcome) : Except PyError Json :=
  getNames "inname" defaultInputNames o

/-- `get_output_names` over an HTTP outcome. -/
def get_output_names (o : HttpOutcome) : Except PyError Json :=
  getNames "name" defaultOutputNames o

/-- The shape restriction under which the functions are raise-free: the
exchange failed, or the body is a JSON object whose relevant member is
absent, falsy, or sized (a list, string or object, so that `len()` applies).
Only a truthy unsized member (a number, `True`) and a non-object body are
excluded — exactly the inputs on which the code raises. -/
def NamesShapeOk (key : String) : HttpOutcome → Prop
  | .oreiError => True
  | .response body =>
    match body with
    | .jobj fields =>
      match jsonGet fields key with
      | none => True
      | some v => jsonTruthy v = false ∨ (jsonLen v).isSome = true
    | _ => False

/-! ### Coordinator state model

`coordinator.py`.  `self._last_known_data` and `self._optimistic_state` are
Python dicts from attribute name to either a plain value or a nested dict
from port index to value; both are modelled as association lists over a
primitive-value type. -/

/-- A primitive attribute value (bool, string or int). -/
inductive Prim where
  | pb (b : Bool)
  | ps (s : String)
  | pn (n : Int)
  deriving DecidableEq

/-- A value of the data/overlay dicts: a scalar, or a nested
`dict[int, value]` (per-port table). -/
inductive DVal where
  | scalar (p : Prim)
  | table (m : List (Nat × Prim))
  deriving DecidableEq

/-- Lookup in a port table (`m[i]`). -/
def lookupNat : List (Nat × Prim) → Nat → Option Prim
  | [], _ => none
  | (k, v) :: rest, i => if k = i then some v else lookupNat rest i

/-- `m[i] = v` on a port table: replace the existing binding in place, append
otherwise (Python dict assignment preserves insertion order). -/
def setNat : List (Nat × Prim) → Nat → Prim → List (Nat × Prim)
  | [], i, v => [(i, v)]
  | (k, w) :: rest, i, v =>
    if k = i then (i, v) :: rest else (k, w) :: setNat rest i v

/-- `del m[i]` on a port table (no-op when absent, matching guarded deletes). -/
def eraseNat : List (Nat × Prim) → Nat → List (Nat × Prim)
  | [], _ => []
  | (k, w) :: rest, i => if k = i then rest else (k, w) :: eraseNat rest i

/-- `base.update(upd)` on port tables. -/
def updateNat (base upd : List (Nat × Prim)) : List (Nat × Prim) :=
  upd.foldl (fun acc kv => setNat acc kv.1 kv.2) base

/-- The type of `_last_known_data` and `_optimistic_state`. -/
abbrev DataDict := List (String × DVal)

/-- Lookup in a data dict (`d[key]` / `d.get(key)`). -/
def lookupStr : DataDict → String → Option DVal
  | [], _ => none
  | (k, v) :: rest, key => if k = key then some v else lookupStr rest key

/-- `d[key] = v` on a data dict. -/
def setStr : DataDict → String → DVal → DataDict
  | [], key, v => [(key, v)]
  | (k, w) :: rest, key, v =>
    if k = key then (key, v) :: rest else (k, w) :: setStr rest key v

/-- `del d[key]` on a data dict (no-op when absent). -/
def eraseStr : DataDict → String → DataDict
  | [], _ => []
  | (k, w) :: rest, key => if k = key then rest else (k, w) :: eraseStr rest key

/-- `set_optimistic_state(key, value, sub_key)` (`coordinator.py` lines
123-133), acting on `_optimistic_state` only:
```python
if sub_key is not None:
    if key not in self._optimistic_state:
        self._optimistic_state[key] = {}
    self._optimistic_state[key][sub_key] = value
else:
    self._optimistic_state[key] = value
```
`none` models the `TypeError` Python raises when `sub_key` is given but the
existing overlay entry is a scalar (item assignment on a non-dict). -/
def set_optimistic_state (ov : DataDict) (key : String) (value : Prim)
    (sub_key : Option Nat) : Option DataDict :=
  match sub_key with
  | none => some (setStr ov key (.scalar value))
  | some i =>
    match lookupStr ov key with
    | none => some (setStr ov key (.table [(i, value)]))
    | some (.table m) => some (setStr ov key (.table (setNat m i value)))
    | some (.scalar _) => none

/-- `clear_optimistic_state(key, sub_key)` (`coordinator.py` lines 135-143):
```python
if sub_key is not None:
    if key in self._optimistic_state and sub_key in self._optimistic_state[key]:
        del self._optimistic_state[key][sub_key]
        if not self._optimistic_state[key]:
            del self._optimistic_state[key]
elif key in self._optimistic_state:
    del self._optimistic_state[key]
```
`none` models the `TypeError` of `sub_key in <scalar>`. -/
def clear_optimistic_state (ov : DataDict) (key : String) (sub_key : Option Nat) :
    Option DataDict :=
  match sub_key with
  | none => some (eraseStr ov key)
  | some i =>
    match lookupStr ov key with
    | none => some ov
    | some (.table m) =>
      match lookupNat m i with
      | none => some ov
      | some _ =>
        let m' := eraseNat m i
        some (if m' = [] then eraseStr ov key else setStr ov key (.table m'))
    | some (.scalar _) => none

/-- `_merge_data(data)` (`coordinator.py` lines 145-156):
```python
merged = data.copy()
for key, value in self._optimistic_state.items():
    if isinstance(value, dict) and key in merged and isinstance(merged[key], dict):
        merged[key] = merged[key].copy()
        merged[key].update(value)
    else:
        merged[key] = value
return merged
```
-/
def merge_data (data ov : DataDict) : DataDict :=
  ov.foldl
    (fun merged kv =>
      match kv.2, lookupStr merged kv.1 with
      | .table t, some (.table mt) => setStr merged kv.1 (.table (updateNat mt t))
      | v, _ => setStr merged kv.1 v)
    data

/-- Python truthiness of a primitive value (`if full_status.get(...)`). -/
def primTruthy : Prim → Bool
  | .pb b => b
  | .ps s => s != ""
  | .pn n => n != 0

/-- The parsed consolidated-status dict consumed by
`_update_data_from_status`.  Scalar members are `Option` (`none` = key
absent); per-port groups are tables, `[]` meaning absent-or-empty (both are
falsy under the `full_status.get(...)` checks). -/
structure FullStatus where
  power : Option Prim
  beep : Option Prim
  lock : Option Prim
  routing : List (Nat × Prim)
  input_status : List (Nat × Prim)
  output_status : List (Nat × Prim)
  output_hdcp : List (Nat × Prim)
  output_stream : List (Nat × Prim)
  output_scaler : List (Nat × Prim)
  output_hdr : List (Nat × Prim)
  output_arc : List (Nat × Prim)
  output_audio_mute : List (Nat × Prim)
  input_edid : List (Nat × Prim)
  output_ext_audio : List (Nat × Prim)
  ext_audio_mode : Option Prim
  output_ext_audio_source : List (Nat × Prim)

/-- `if "key" in full_status: d["key"] = full_status["key"]` (scalar). -/
def setScalarIf (d : DataDict) (key : String) (v : Option Prim) : DataDict :=
  match v with
  | none => d
  | some p => setStr d key (.scalar p)

/-- `if full_status.get("key"): d["key"] = full_status["key"]` (wholesale
table assignment, used for `routing` and `output_audio_mute`). -/
def setWholesaleIf (d : DataDict) (key : String) (new : List (Nat × Prim)) : DataDict :=
  if new = [] then d else setStr d key (.table new)

/-- `if full_status.get("key"): d["key"].update(full_status["key"])`.
`none` models the `KeyError`/`AttributeError` Python raises when `d` lacks
the key or holds a non-dict there (never the case for data derived from
`_get_default_data`). -/
def updGroup (d : DataDict) (key : String) (new : List (Nat × Prim)) : Option DataDict :=
  if new = [] then some d
  else
    match lookupStr d key with
    | some (.table m) => some (setStr d key (.table (updateNat m new)))
    | _ => none

/-- `if full_status.get("ext_audio_mode"): d["ext_audio_mode"] = ...`
(guarded scalar assignment with Python truthiness). -/
def setExtAudioModeIf (d : DataDict) (v : Option Prim) : DataDict :=
  match v with
  | some p => if primTruthy p then setStr d "ext_audio_mode" (.scalar p) else d
  | none => d

/-- `_update_data_from_status(full_status)` (`coordinator.py` lines 245-279),
as a function of the previous `_last_known_data`; member order follows the
source. -/
def update_data_from_status (lk : DataDict) (st : FullStatus) : Option DataDict :=
  let d := setScalarIf lk "power" st.power
  let d := setScalarIf d "beep" st.beep
  let d := setScalarIf d "lock" st.lock
  let d := setWholesaleIf d "routing" st.routing
  (updGroup d "input_status" st.input_status).bind fun d =>
  (updGroup d "output_status" st.output_status).bind fun d =>
  (updGroup d "output_hdcp" st.output_hdcp).bind fun d =>
  (updGroup d "output_stream" st.output_stream).bind fun d =>
  (updGroup d "output_scaler" st.output_scaler).bind fun d =>
  (updGroup d "output_hdr" st.output_hdr).bind fun d =>
  (updGroup d "output_arc" st.output_arc).bind fun d =>
  let d := setWholesaleIf d "output_audio_mute" st.output_audio_mute
  (updGroup d "input_edid" st.input_edid).bind fun d =>
  (updGroup d "output_ext_audio" st.output_ext_audio).bind fun d =>
  updGroup (setExtAudioModeIf d st.ext_audio_mode)
    "output_ext_audio_source" st.output_ext_audio_source

/-- An 8-port table with value `f i` at port `i` (ports 1..8). -/
def mkTable (f : Nat → Prim) : List (Nat × Prim) :=
  (List.range 8).map fun i => (i + 1, f (i + 1))

/-- `_get_default_data()` (`coordinator.py` lines 60-79). -/
def defaultData : DataDict :=
  [("power", .scalar (.pb true)),
   ("beep", .scalar (.pb false)),
   ("lock", .scalar (.pb false)),
   ("routing", .table (mkTable fun i => .pn i)),
   ("input_status", .table (mkTable fun _ => .ps "Unknown")),
   ("output_status", .table (mkTable fun _ => .ps "Unknown")),
   ("output_hdcp", .table (mkTable fun _ => .ps "Follow Sink")),
   ("output_stream", .table (mkTable fun _ => .pb true)),
   ("output_scaler", .table (mkTable fun _ => .ps "Pass-through")),
   ("output_hdr", .table (mkTable fun _ => .ps "Pass-through")),
   ("output_arc", .table (mkTable fun _ => .pb false)),
   ("output_audio_mute", .table (mkTable fun _ => .pb false)),
   ("input_edid", .table (mkTable fun _ => .ps "8K FRL12G HDR, 7.1CH")),
   ("output_ext_audio", .table (mkTable fun _ => .pb true)),
   ("ext_audio_mode", .scalar (.ps "Bind to Input")),
   ("output_ext_audio_source", .table (mkTable fun i => .pn i))]

/-- The coordinator state visible to this model: the authoritative cache, the
optimistic overlay, the availability flag, and the snapshot most recently
published to consumers (`self.data`, set by `async_set_updated_data` or by
returning from `_async_update_data`). -/
structure CoordState where
  last_known_data : DataDict
  optimistic_state : DataDict
  available : Bool
  published : DataDict

/-- `set_optimistic_state` at the coordinator level: update the overlay, then
`self.async_set_updated_data(self._merge_data(self._last_known_data))`. -/
def coordSetOptimistic (s : CoordState) (key : String) (value : Prim)
    (sub_key : Option Nat) : Option CoordState :=
  (set_optimistic_state s.optimistic_state key value sub_key).map fun ov =>
    { s with
      optimistic_state := ov
      published := merge_data s.last_known_data ov }

/-- Outcome of `self.api.get_full_status()` inside `_fetch_all_data`:
a parsed status, or a raised `OreiMatrixError` (the total-communication
failure of claim C2 is its subclass `OreiMatrixConnectionError`). -/
inductive FetchOutcome where
  | statusOk (st : FullStatus)
  | oreiError

/-- `_fetch_all_data()` (`coordinator.py` lines 183-205) as a function of the
previous `_last_known_data`: `get_full_status` is awaited inside
`try ... except OreiMatrixError`, so BOTH a parsed status and ANY
`OreiMatrixError` (including `OreiMatrixConnectionError`) lead to a normal
return; on error the previous data is kept.  The only modelled failure
(`none`) is the non-`OreiMatrixError` `AttributeError` of
`_update_data_from_status` on malformed cached data. -/
def fetch_all_data (lk : DataDict) (o : FetchOutcome) : Option DataDict :=
  match o with
  | .statusOk st => update_data_from_status lk st
  | .oreiError => some lk

/-- `_async_update_data()` (`coordinator.py` lines 158-181).  Since
`_fetch_all_data` never lets an `OreiMatrixError` escape, the
`except OreiMatrixConnectionError` / `except OreiMatrixError` branches that
set `_available = False` and republish are unreachable; every completed poll
takes the success path: `_available = True`, `_last_known_data = data`,
`_optimistic_state.clear()`, and `data` becomes the published snapshot. -/
def async_update_data (s : CoordState) (o : FetchOutcome) : Option CoordState :=
  (fetch_all_data s.last_known_data o).map fun data =>
    { last_known_data := data
      optimistic_state := []
      available := true
      published := data }

/-- `async_set_output_source(output, source)` (`coordinator.py` lines
396-404): apply the optimistic routing value, perform the write, and on
failure clear exactly that optimistic entry and re-raise; on success schedule
the delayed confirming refresh.  Result: the new state, whether the error was
propagated to the caller, and whether a confirming refresh was scheduled. -/
def async_set_output_source (s : CoordState) (output : Nat) (source : Int)
    (writeOk : Bool) : Option (CoordState × Bool × Bool) :=
  (coordSetOptimistic s "routing" (.pn source) (some output)).bind fun s1 =>
    if writeOk then
      some (s1, false, true)
    else
      (clear_optimistic_state s1.optimistic_state "routing" (some output)).map fun ov2 =>
        ({ s1 with optimistic_state := ov2 }, true, false)

/-- The value a consumer reads for scalar attribute `key` of a snapshot. -/
def reportScalar (d : DataDict) (key : String) : Option Prim :=
  match lookupStr d key with
  | some (.scalar p) => some p
  | _ => none

/-- The value a consumer reads for attribute `key`, port `i`, of a snapshot. -/
def reportSub (d : DataDict) (key : String) (i : Nat) : Option Prim :=
  match lookupStr d key with
  | some (.table m) => lookupNat m i
  | _ => none

/-- The value a consumer reads for attribute `key` with optional port. -/
def reportAt (d : DataDict) (key : String) : Option Nat → Option Prim
  | none => reportScalar d key
  | some i => reportSub d key i

/-- Well-formedness of a Python dict model: keys are unique, and every nested
port table also has unique keys.  Every dict built by the coordinator
satisfies this, because Python dicts cannot carry duplicate keys. -/
abbrev DictWF (d : DataDict) : Prop :=
  (d.map Prod.fst).Nodup ∧
  ∀ kv ∈ d,
    match kv.2 with
    | DVal.table t => (t.map Prod.fst).Nodup
    | _ => True

/-! ### Response completion detector

`api.py`, `_is_response_complete` (lines 387-421).  The detector lowers the
buffer, first scans for one of three fixed multi-line completion markers,
then takes `response.strip().split("\n")[-1].strip().lower()` and scans it
for one of sixteen fixed single-line value keywords, and finally accepts a
buffer ending in a newline whose stripped content is longer than three
characters.  An empty buffer is never complete. -/

/-- The fixed multi-line completion markers (`complete_markers` in the source,
already lowercase there). -/
def complete_markers : List (List Char) :=
  ["initialization finished".toList, "mac address:".toList, "telnet port:".toList]

/-- The fixed single-line value keywords scanned for in the last line
(the literal list in the source, already lowercase there). -/
def singleLineKeywords : List (List Char) :=
  ["on".toList, "off".toList, "enable".toList, "disable".toList, "->".toList,
   "mode:".toList, "hdcp:".toList, "preset".toList, "edid:".toList, "arc:".toList,
   "connect".toList, "disconnect".toList, "sync".toList,
   "scaler".toList, "hdr".toList, "stream".toList]

/-- `_is_response_complete` itself.  `response.strip().split("\n")` is never
empty, so Python's `if lines:` guard is always taken and `lines[-1]` is the
`getLastD` of the split; `endswith("\n")` is the last character being a
newline. -/
def is_response_complete (response : List Char) : Bool :=
  if response = [] then false
  else if complete_markers.any
      (fun marker => containsSub marker (response.map Char.toLower)) then true
  else if singleLineKeywords.any
      (fun x => containsSub x
        ((pystrip ((splitNL (pystrip response)).getLastD [])).map Char.toLower)) then
    true
  else if response.getLast? = some '\n' ∧ 3 < (pystrip response).length then true
  else false

/-- Spec reading for C6, rule 2: the last non-empty line of the buffer.
A line consisting solely of whitespace is not displayed content, so
"non-empty" is read as "not whitespace-only": whitespace-only trailing lines
are skipped (reading it as literal `l ≠ []` would contradict the code on
buffers such as `"on\n  \n"`, whose literal last non-empty line `"  "` holds
no keyword). -/
def lastNonEmptyLine (r : List Char) : Option (List Char) :=
  ((splitNL r).filter (fun l => !(l.all isSpc))).getLast?

/-- The claim's prioritized rule set, written from its words: empty never
complete; (1) a fixed multi-line marker anywhere, case-insensitively; else
(2) the last non-empty line contains a fixed keyword, case-insensitively;
else (3) trailing line terminator with more than trivially long stripped
content. -/
def responseCompleteSpec (r : List Char) : Bool :=
  if r = [] then false
  else if complete_markers.any
      (fun marker => containsSub marker (r.map Char.toLower)) then true
  else if (match lastNonEmptyLine r with
      | some l => singleLineKeywords.any (fun k => containsSub k (l.map Char.toLower))
      | none => false) then true
  else if r.getLast? = some '\n' ∧ 3 < (pystrip r).length then true
  else false

end OreiMatrix

namespace OreiMatrix

/-! ## Theorems -/

/-! ### Generic lemmas about the list utilities -/

theorem isPfx_iff (n h : List Char) : isPfx n h = true ↔ n <+: h := by
  induction n generalizing h with
  | nil => simp [isPfx]
  | cons a as ih =>
    cases h with
    | nil => simp [isPfx]
    | cons b bs =>
      simp [isPfx, ih, List.cons_prefix_cons, eq_comm (a := a)]

theorem containsSub_iff (n h : List Char) : containsSub n h = true ↔ n <:+: h := by
  induction h with
  | nil => simp [containsSub, isPfx_iff]
  | cons c t ih => simp [containsSub, isPfx_iff, ih, List.infix_cons_iff]

/-! ### Claim C8: the terminator is appended exactly once -/

/-- C8: for every command string, encoding appends the protocol terminator `!`
exactly once: a command that does not end with `!` gets it appended, a command
already ending with `!` is left unchanged (hence encoding is idempotent and
always ends with `!`), and in particular `encode "power 1"` and
`encode "power 1!"` produce identical wire bytes. -/
theorem c8_terminator_appended_exactly_once :
    (∀ c : List Char,
      encodeCommand c = c ++ (if c.getLast? = some '!' then [] else ['!']) ∧
      (encodeCommand c).getLast? = some '!' ∧
      encodeCommand (encodeCommand c) = encodeCommand c) ∧
    encodeCommand ("power 1".data) = encodeCommand ("power 1!".data) := by
  constructor
  · intro c
    by_cases h : c.getLast? = some '!'
    · refine ⟨by simp [encodeCommand, h], by simp [encodeCommand, h], ?_⟩
      simp [encodeCommand, h]
    · refine ⟨by simp [encodeCommand, h], ?_, ?_⟩
      · simp [encodeCommand, h]
      · simp [encodeCommand, h]
  · decide

/-! ### Claim C4: response classification (corrected) -/

/-- C4 counterexample: the claim as stated (only the marker and following line
breaks are stripped from an `E00` response) is false: for the response
`"E00 x"` the code returns `"x"`, not `" x"`, because `lstrip("\r\n ")` also
strips spaces. -/
theorem c4_counterexample_space_also_stripped : ¬ c4ClaimE00 := by
  intro h
  exact absurd (h ("E00 x".data) (by decide)) (by decide)

/-- C4 (amended): a response beginning with `E00` has the marker and any
following line breaks AND SPACES stripped, the remainder being returned as a
success payload; a response beginning with `E0` followed by a digit other than
`0` raises a `CommandError` whose message contains that 3-character marker and
the full response text; any response that does not start with such a marker
(no `E0` prefix, or too short, or third character not a digit) is returned
verbatim as success. -/
theorem c4_response_classification (r : List Char) :
    (isPfx ['E', '0', '0'] r = true →
      classifyResponse r = .success ((r.drop 3).dropWhile e00StripSet)) ∧
    (∀ d : Char, r.get? 2 = some d → isPfx ['E', '0'] r = true →
      d.isDigit = true → d ≠ '0' →
      classifyResponse r =
        .commandError (("Command error ".data ++ r.take 3) ++ (": ".data ++ r)) ∧
      containsSub (r.take 3)
        (("Command error ".data ++ r.take 3) ++ (": ".data ++ r)) = true ∧
      containsSub r
        (("Command error ".data ++ r.take 3) ++ (": ".data ++ r)) = true) ∧
    (isPfx ['E', '0'] r = false → classifyResponse r = .success r) ∧
    (r.length ≤ 2 → isPfx ['E', '0', '0'] r = false → classifyResponse r = .success r) ∧
    (∀ d : Char, r.get? 2 = some d → d.isDigit = false →
      isPfx ['E', '0', '0'] r = false → classifyResponse r = .success r) := by
  refine ⟨?_, ?_, ?_, ?_, ?_⟩
  · intro h
    simp [classifyResponse, h]
  · intro d hget hpfx hdig hne
    have hget' : r[2]? = some d := by rw [← List.get?_eq_getElem?]; exact hget
    have hlt : 2 < r.length := by
      by_contra hc
      rw [List.getElem?_eq_none (by omega)] at hget'
      exact Option.noConfusion hget'
    have hE00 : isPfx ['E', '0', '0'] r = false := by
      by_contra hcon
      rw [Bool.not_eq_false, isPfx_iff] at hcon
      rcases hcon with ⟨t, rfl⟩
      simp at hget'
      exact hne hget'.symm
    have hcode : r.take 3 ≠ ['E', '0', '0'] := by
      intro hc
      have hr : isPfx ['E', '0', '0'] r = true :=
        (isPfx_iff _ _).mpr (hc ▸ List.take_prefix 3 r)
      rw [hr] at hE00
      exact Bool.noConfusion hE00
    refine ⟨?_, ?_, ?_⟩
    · simp [classifyResponse, hE00, hpfx, hget', hdig, hlt, hcode]
    · rw [containsSub_iff]
      exact ⟨"Command error ".data, ": ".data ++ r, by simp⟩
    · rw [containsSub_iff]
      exact ⟨("Command error ".data ++ r.take 3) ++ ": ".data, [], by simp⟩
  · intro h
    have hE00 : isPfx ['E', '0', '0'] r = false := by
      by_contra hcon
      rw [Bool.not_eq_false, isPfx_iff] at hcon
      have h2 : isPfx ['E', '0'] r = true :=
        (isPfx_iff _ _).mpr ((show ['E', '0'] <+: ['E', '0', '0'] by decide).trans hcon)
      rw [h2] at h
      exact Bool.noConfusion h
    simp [classifyResponse, hE00, h]
  · intro hlen hE00
    have hdec : decide (r.length > 2) = false := by
      simp only [decide_eq_false_iff_not]
      omega
    simp [classifyResponse, hE00, hdec]
  · intro d hget hdig hE00
    have hget' : r[2]? = some d := by rw [← List.get?_eq_getElem?]; exact hget
    simp [classifyResponse, hE00, hget', hdig]

/-- C4 witness: the amended clauses evaluated at concrete responses
`"E00 x"` (success with marker, line breaks and spaces stripped), `"E02fail"`
(raised `CommandError` containing `"E02"` and the response), and `"hello"`
(returned verbatim). -/
theorem c4_response_classification_witness :
    classifyResponse ("E00 x".data) = .success ("x".data) ∧
    (classifyResponse ("E02fail".data) =
      .commandError ("Command error E02: E02fail".data) ∧
     containsSub ("E02".data) ("Command error E02: E02fail".data) = true ∧
     containsSub ("E02fail".data) ("Command error E02: E02fail".data) = true) ∧
    classifyResponse ("hello".data) = .success ("hello".data) := by
  refine ⟨?_, ?_, ?_⟩
  · have h := (c4_response_classification ("E00 x".data)).1 (by decide)
    rw [h]
    decide
  · have h := (c4_response_classification ("E02fail".data)).2.1 '2' (by decide)
      (by decide) (by decide) (by decide)
    refine ⟨?_, ?_, ?_⟩
    · rw [h.1]; decide
    · have := h.2.1
      revert this
      decide
    · have := h.2.2
      revert this
      decide
  · exact (c4_response_classification ("hello".data)).2.2.1 (by decide)

/-! ### Claim C10: HTTP name queries never raise (corrected) -/

/-- C10 counterexample: the claim quantifies over every HTTP side-channel
outcome including structurally unexpected responses, and says the functions
never raise and always return a list of exactly 8 labels; but a response
whose `inname` member is a number makes `len(names)` raise an uncaught
`TypeError` (only `OreiMatrixError` is caught), a response whose JSON body is
not an object makes `response.get` raise an uncaught `AttributeError`, and a
response whose `inname` member is the 8-character string `"abcdefgh"` passes
the `names and len(names) == 8` guard and is returned as-is — a string, not a
list of labels and not the defaults. -/
theorem c10_counterexample_unexpected_response_raises :
    get_input_names (.response (.jobj [("inname", .jnum 5)])) = .error .typeError ∧
    get_output_names (.response (.jnum 3)) = .error .attributeError ∧
    get_input_names (.response (.jobj [("inname", .jstr "abcdefgh")])) =
      .ok (.jstr "abcdefgh") :=
  ⟨rfl, rfl, rfl⟩

/-- C10 (amended): on an outcome in which the HTTP layer raised an
`OreiMatrixError` (connection or authentication failure), `get_input_names`
(resp. `get_output_names`) returns the synthesized defaults
`Input1`..`Input8` (resp. `Output1`..`Output8`); on a JSON object response it
takes the `inname` (resp. `name`) member (defaulting to `[]`) and, whenever
that member is absent, falsy, or sized (`len()` applies), it does not raise
and returns a value of `len` exactly 8: the member itself when the member is
truthy with `len` exactly 8 — even when it is not a list, e.g. an
8-character string — and the synthesized defaults otherwise.  Outside that
shape the functions raise: `TypeError` on a truthy unsized member and
`AttributeError` on a non-object body (the counterexample). -/
theorem c10_names_shape_ok (o : HttpOutcome) :
    (NamesShapeOk "inname" o →
      ∃ r, get_input_names o = .ok r ∧ jsonLen r = some 8) ∧
    (∀ fields v n, o = .response (.jobj fields) →
      jsonGet fields "inname" = some v → jsonTruthy v = true →
      jsonLen v = some n → n = 8 → get_input_names o = .ok v) ∧
    (∀ fields v n, o = .response (.jobj fields) →
      jsonGet fields "inname" = some v → jsonTruthy v = true →
      jsonLen v = some n → n ≠ 8 → get_input_names o = .ok defaultInputNames) ∧
    (∀ fields v, o = .response (.jobj fields) →
      jsonGet fields "inname" = some v → jsonTruthy v = false →
      get_input_names o = .ok defaultInputNames) ∧
    (∀ fields, o = .response (.jobj fields) → jsonGet fields "inname" = none →
      get_input_names o = .ok defaultInputNames) ∧
    (o = .oreiError → get_input_names o = .ok defaultInputNames) ∧
    (NamesShapeOk "name" o →
      ∃ r, get_output_names o = .ok r ∧ jsonLen r = some 8) ∧
    (∀ fields v n, o = .response (.jobj fields) →
      jsonGet fields "name" = some v → jsonTruthy v = true →
      jsonLen v = some n → n = 8 → get_output_names o = .ok v) ∧
    (o = .oreiError → get_output_names o = .ok defaultOutputNames) := by
  have main : ∀ (key : String) (defaults : Json), jsonLen defaults = some 8 →
      (NamesShapeOk key o →
        ∃ r, getNames key defaults o = .ok r ∧ jsonLen r = some 8) ∧
      (∀ fields v n, o = .response (.jobj fields) →
        jsonGet fields key = some v → jsonTruthy v = true →
        jsonLen v = some n → n = 8 → getNames key defaults o = .ok v) ∧
      (∀ fields v n, o = .response (.jobj fields) →
        jsonGet fields key = some v → jsonTruthy v = true →
        jsonLen v = some n → n ≠ 8 → getNames key defaults o = .ok defaults) ∧
      (∀ fields v, o = .response (.jobj fields) →
        jsonGet fields key = some v → jsonTruthy v = false →
        getNames key defaults o = .ok defaults) ∧
      (∀ fields, o = .response (.jobj fields) → jsonGet fields key = none →
        getNames key defaults o = .ok defaults) ∧
      (o = .oreiError → getNames key defaults o = .ok defaults) := by
    intro key defaults hdef
    refine ⟨?_, ?_, ?_, ?_, ?_, ?_⟩
    · intro hshape
      cases o with
      | oreiError => exact ⟨defaults, rfl, hdef⟩
      | response body =>
        cases body with
        | jobj fields =>
          simp only [NamesShapeOk] at hshape
          cases hj : jsonGet fields key with
          | none =>
            refine ⟨defaults, ?_, hdef⟩
            simp [getNames, hj, jsonTruthy]
          | some v =>
            rw [hj] at hshape
            by_cases ht : jsonTruthy v = true
            · have hsome : (jsonLen v).isSome = true := by
                rcases hshape with hf | hs
                · rw [ht] at hf
                  exact absurd hf (by simp)
                · exact hs
              obtain ⟨n, hn⟩ := Option.isSome_iff_exists.mp hsome
              by_cases h8 : n = 8
              · subst h8
                refine ⟨v, ?_, hn⟩
                simp [getNames, hj, ht, hn]
              · refine ⟨defaults, ?_, hdef⟩
                simp [getNames, hj, ht, hn, h8]
            · have ht2 : jsonTruthy v = false := by simpa using ht
              refine ⟨defaults, ?_, hdef⟩
              simp [getNames, hj, ht2]
        | jnull => exact absurd hshape (by simp [NamesShapeOk])
        | jbool b => exact absurd hshape (by simp [NamesShapeOk])
        | jnum n => exact absurd hshape (by simp [NamesShapeOk])
        | jstr st => exact absurd hshape (by simp [NamesShapeOk])
        | jarr xs => exact absurd hshape (by simp [NamesShapeOk])
    · rintro fields v n rfl hj ht hn h8
      subst h8
      simp [getNames, hj, ht, hn]
    · rintro fields v n rfl hj ht hn h8
      simp [getNames, hj, ht, hn, h8]
    · rintro fields v rfl hj ht
      simp [getNames, hj, ht]
    · rintro fields rfl hj
      simp [getNames, hj, jsonTruthy]
    · rintro rfl
      rfl
  have hin := main "inname" defaultInputNames (by rfl)
  have hout := main "name" defaultOutputNames (by rfl)
  exact ⟨hin.1, hin.2.1, hin.2.2.1, hin.2.2.2.1, hin.2.2.2.2.1, hin.2.2.2.2.2,
    hout.1, hout.2.1, hout.2.2.2.2.2⟩

/-- C10 witness: a device response carrying exactly 8 input names is returned
as-is; a truthy `inname` member of `len` 5 (a 5-character string) yields the
synthesized default input names; a failed HTTP exchange yields the
synthesized default output names. -/
theorem c10_names_shape_ok_witness :
    get_input_names
      (.response (.jobj [("inname",
        .jarr [.jstr "A", .jstr "B", .jstr "C", .jstr "D",
               .jstr "E", .jstr "F", .jstr "G", .jstr "H"])])) =
      .ok (.jarr [.jstr "A", .jstr "B", .jstr "C", .jstr "D",
                  .jstr "E", .jstr "F", .jstr "G", .jstr "H"]) ∧
    get_input_names (.response (.jobj [("inname", .jstr "short")])) =
      .ok defaultInputNames ∧
    get_output_names .oreiError = .ok defaultOutputNames := by
  refine ⟨?_, ?_, ?_⟩
  · exact (c10_names_shape_ok
      (.response (.jobj [("inname",
        .jarr [.jstr "A", .jstr "B", .jstr "C", .jstr "D",
               .jstr "E", .jstr "F", .jstr "G", .jstr "H"])]))).2.1
      _ _ 8 rfl rfl rfl rfl rfl
  · exact (c10_names_shape_ok
      (.response (.jobj [("inname", .jstr "short")]))).2.2.1
      _ _ 5 rfl rfl rfl rfl (by decide)
  · exact (c10_names_shape_ok .oreiError).2.2.2.2.2.2.2.2 rfl

/-! ### Claim C3: retry on transient failures, immediate CommandError -/

theorem sendLoop_zero (f : Nat → AttemptSpec) (i : Nat) (connected : Bool)
    (lastErr : Option TransientKind) :
    sendLoop f i 0 connected lastErr =
      ((match lastErr with
        | some k => SendOutcome.connectionError k
        | none => SendOutcome.unknownError), []) := rfl

theorem sendLoop_step_io (f : Nat → AttemptSpec) (i fuel : Nat) (connected : Bool)
    (lastErr : Option TransientKind)
    (hg : ¬ (connected = false ∧ (f i).connectOk = false))
    (hbody : (f i).body = .ioFailure) :
    sendLoop f i (fuel + 1) connected lastErr =
      ((sendLoop f (i + 1) fuel false (some .ioFailure)).1,
        (if connected then [] else [.disconnect, .connect]) ++ [.write, .disconnect] ++
          (if fuel = 0 then [] else [.sleepRetry]) ++
          (sendLoop f (i + 1) fuel false (some .ioFailure)).2) := by
  simp [sendLoop, hg, hbody]

theorem sendLoop_step_timeout (f : Nat → AttemptSpec) (i fuel : Nat) (connected : Bool)
    (lastErr : Option TransientKind)
    (hg : ¬ (connected = false ∧ (f i).connectOk = false))
    (hbody : (f i).body = .readTimeout) :
    sendLoop f i (fuel + 1) connected lastErr =
      ((sendLoop f (i + 1) fuel connected (some .readTimeout)).1,
        (if connected then [] else [.disconnect, .connect]) ++ [.write] ++
          (if fuel = 0 then [] else [.sleepRetry]) ++
          (sendLoop f (i + 1) fuel connected (some .readTimeout)).2) := by
  simp [sendLoop, hg, hbody]

theorem sendLoop_step_resp (f : Nat → AttemptSpec) (i fuel : Nat) (connected : Bool)
    (lastErr : Option TransientKind) (r : List Char)
    (hg : ¬ (connected = false ∧ (f i).connectOk = false))
    (hbody : (f i).body = .deviceResponse r) :
    sendLoop f i (fuel + 1) connected lastErr =
      ((match classifyResponse r with
        | .success p => SendOutcome.success p
        | .commandError m => SendOutcome.commandError m),
        (if connected then [] else [.disconnect, .connect]) ++ [.write]) := by
  cases hc : classifyResponse r <;> simp [sendLoop, hg, hbody, hc]

theorem count_ens (connected : Bool) (a : DispatchAction)
    (h1 : a ≠ DispatchAction.disconnect) (h2 : a ≠ DispatchAction.connect) :
    (if connected then ([] : List DispatchAction)
     else [.disconnect, .connect]).count a = 0 := by
  cases connected <;> simp [List.count_cons, h1, h2, List.count_nil]

theorem sendLoop_all_transient (fuel : Nat) :
    ∀ (f : Nat → AttemptSpec) (i : Nat) (connected : Bool) (lastErr : Option TransientKind),
      0 < fuel →
      (∀ k, k < fuel → (f (i + k)).connectOk = true ∧ isTransient (f (i + k)).body = true) →
      (sendLoop f i fuel connected lastErr).1 =
        .connectionError (transientKind (f (i + fuel - 1)).body) ∧
      (sendLoop f i fuel connected lastErr).2.count .write = fuel ∧
      (sendLoop f i fuel connected lastErr).2.count .sleepRetry = fuel - 1 := by
  induction fuel with
  | zero => intro _ _ _ _ h; omega
  | succ m ih =>
    intro f i connected lastErr _ hall
    have h0 := hall 0 (by omega)
    rw [Nat.add_zero] at h0
    have hguard : ¬ (connected = false ∧ (f i).connectOk = false) := by
      rintro ⟨-, hc⟩
      rw [h0.1] at hc
      exact Bool.noConfusion hc
    have hidx1 : i + (m + 1) - 1 = i + m := by omega
    rw [hidx1]
    by_cases hm : m = 0
    · subst hm
      cases hbody : (f i).body with
      | deviceResponse r => rw [hbody] at h0; simp [isTransient] at h0
      | ioFailure =>
        rw [sendLoop_step_io f i 0 connected lastErr hguard hbody, sendLoop_zero]
        refine ⟨by rw [Nat.add_zero, hbody]; rfl, ?_, ?_⟩
        · simp only [if_pos rfl, List.count_append, List.append_nil,
            count_ens connected .write (by simp) (by simp)]
          rfl
        · simp only [if_pos rfl, List.count_append, List.append_nil,
            count_ens connected .sleepRetry (by simp) (by simp)]
          rfl
      | readTimeout =>
        rw [sendLoop_step_timeout f i 0 connected lastErr hguard hbody, sendLoop_zero]
        refine ⟨by rw [Nat.add_zero, hbody]; rfl, ?_, ?_⟩
        · simp only [if_pos rfl, List.count_append, List.append_nil,
            count_ens connected .write (by simp) (by simp)]
          rfl
        · simp only [if_pos rfl, List.count_append, List.append_nil,
            count_ens connected .sleepRetry (by simp) (by simp)]
          rfl
    · have hshift : ∀ k, k < m →
          (f (i + 1 + k)).connectOk = true ∧ isTransient (f (i + 1 + k)).body = true := by
        intro k hk
        have := hall (k + 1) (by omega)
        rwa [show i + (k + 1) = i + 1 + k by omega] at this
      have hidx : i + 1 + m - 1 = i + m := by omega
      cases hbody : (f i).body with
      | deviceResponse r => rw [hbody] at h0; simp [isTransient] at h0
      | ioFailure =>
        have hrec := ih f (i + 1) false (some .ioFailure) (by omega) hshift
        rw [hidx] at hrec
        rw [sendLoop_step_io f i m connected lastErr hguard hbody]
        refine ⟨hrec.1, ?_, ?_⟩
        · simp only [if_neg hm, List.count_append,
            count_ens connected .write (by simp) (by simp), hrec.2.1]
          show 0 + 1 + 0 + m = m + 1
          omega
        · simp only [if_neg hm, List.count_append,
            count_ens connected .sleepRetry (by simp) (by simp), hrec.2.2]
          show 0 + 0 + 1 + (m - 1) = m + 1 - 1
          omega
      | readTimeout =>
        have hrec := ih f (i + 1) connected (some .readTimeout) (by omega) hshift
        rw [hidx] at hrec
        rw [sendLoop_step_timeout f i m connected lastErr hguard hbody]
        refine ⟨hrec.1, ?_, ?_⟩
        · simp only [if_neg hm, List.count_append,
            count_ens connected .write (by simp) (by simp), hrec.2.1]
          show 0 + 1 + 0 + m = m + 1
          omega
        · simp only [if_neg hm, List.count_append,
            count_ens connected .sleepRetry (by simp) (by simp), hrec.2.2]
          show 0 + 0 + 1 + (m - 1) = m + 1 - 1
          omega

theorem sendLoop_commandError (j : Nat) :
    ∀ (f : Nat → AttemptSpec) (i fuel : Nat) (connected : Bool)
      (lastErr : Option TransientKind) (r m : List Char),
      j < fuel →
      (∀ k, k < j → (f (i + k)).connectOk = true ∧ isTransient (f (i + k)).body = true) →
      (f (i + j)).connectOk = true →
      (f (i + j)).body = .deviceResponse r →
      classifyResponse r = .commandError m →
      (sendLoop f i fuel connected lastErr).1 = .commandError m ∧
      (sendLoop f i fuel connected lastErr).2.count .write = j + 1 := by
  induction j with
  | zero =>
    intro f i fuel connected lastErr r m hj hall hconn hbody hclass
    rw [Nat.add_zero] at hconn hbody
    obtain ⟨fuel', rfl⟩ : ∃ fuel', fuel = fuel' + 1 := ⟨fuel - 1, by omega⟩
    have hguard : ¬ (connected = false ∧ (f i).connectOk = false) := by
      rintro ⟨-, hc⟩
      rw [hconn] at hc
      exact Bool.noConfusion hc
    rw [sendLoop_step_resp f i fuel' connected lastErr r hguard hbody, hclass]
    refine ⟨rfl, ?_⟩
    simp only [List.count_append, count_ens connected .write (by simp) (by simp)]
    rfl
  | succ j' ih =>
    intro f i fuel connected lastErr r m hj hall hconn hbody hclass
    obtain ⟨fuel', rfl⟩ : ∃ fuel', fuel = fuel' + 1 := ⟨fuel - 1, by omega⟩
    have h0 := hall 0 (by omega)
    rw [Nat.add_zero] at h0
    have hguard : ¬ (connected = false ∧ (f i).connectOk = false) := by
      rintro ⟨-, hc⟩
      rw [h0.1] at hc
      exact Bool.noConfusion hc
    have hshift : ∀ k, k < j' →
        (f (i + 1 + k)).connectOk = true ∧ isTransient (f (i + 1 + k)).body = true := by
      intro k hk
      have := hall (k + 1) (by omega)
      rwa [show i + (k + 1) = i + 1 + k by omega] at this
    have hidx : i + 1 + j' = i + (j' + 1) := by omega
    rw [← hidx] at hconn hbody
    cases hbody0 : (f i).body with
    | deviceResponse r0 => rw [hbody0] at h0; simp [isTransient] at h0
    | ioFailure =>
      have hrec := ih f (i + 1) fuel' false (some .ioFailure) r m (by omega) hshift
        hconn hbody hclass
      rw [sendLoop_step_io f i fuel' connected lastErr hguard hbody0]
      refine ⟨hrec.1, ?_⟩
      simp only [List.count_append,
        count_ens connected .write (by simp) (by simp), hrec.2]
      by_cases hf : fuel' = 0
      · omega
      · simp only [if_neg hf]
        show 0 + 1 + 0 + (j' + 1) = j' + 1 + 1
        omega
    | readTimeout =>
      have hrec := ih f (i + 1) fuel' connected (some .readTimeout) r m (by omega) hshift
        hconn hbody hclass
      rw [sendLoop_step_timeout f i fuel' connected lastErr hguard hbody0]
      refine ⟨hrec.1, ?_⟩
      simp only [List.count_append,
        count_ens connected .write (by simp) (by simp), hrec.2]
      by_cases hf : fuel' = 0
      · omega
      · simp only [if_neg hf]
        show 0 + 1 + 0 + (j' + 1) = j' + 1 + 1
        omega

theorem sendLoop_ioTrace (fuel : Nat) :
    ∀ (f : Nat → AttemptSpec) (i : Nat) (lastErr : Option TransientKind),
      (∀ k, k < fuel → (f (i + k)).connectOk = true ∧ (f (i + k)).body = .ioFailure) →
      (sendLoop f i fuel false lastErr).2 = ioTrace fuel := by
  induction fuel with
  | zero => intro f i lastErr _; rfl
  | succ m ih =>
    intro f i lastErr hall
    have h0 := hall 0 (by omega)
    rw [Nat.add_zero] at h0
    have hguard : ¬ ((false : Bool) = false ∧ (f i).connectOk = false) := by
      rintro ⟨-, hc⟩
      rw [h0.1] at hc
      exact Bool.noConfusion hc
    have hshift : ∀ k, k < m →
        (f (i + 1 + k)).connectOk = true ∧ (f (i + 1 + k)).body = .ioFailure := by
      intro k hk
      have := hall (k + 1) (by omega)
      rwa [show i + (k + 1) = i + 1 + k by omega] at this
    have hrec := ih f (i + 1) (some .ioFailure) hshift
    rw [sendLoop_step_io f i m false lastErr hguard h0.2]
    by_cases hm : m = 0
    · subst hm
      rfl
    · obtain ⟨m', rfl⟩ : ∃ m', m = m' + 1 := ⟨m - 1, by omega⟩
      rw [if_neg hm]
      show [DispatchAction.disconnect, .connect] ++ [.write, .disconnect] ++
          [.sleepRetry] ++ (sendLoop f (i + 1) (m' + 1) false (some .ioFailure)).2 =
        ioTrace (m' + 1 + 1)
      rw [hrec]
      rfl

theorem c3_retry_policy (f : Nat → AttemptSpec) (retries : Nat)
    (hpos : 0 < retries) (hconn : ∀ k, k < retries → (f k).connectOk = true) :
    ((∀ k, k < retries → isTransient (f k).body = true) →
      (sendLoop f 0 retries false none).1 =
        .connectionError (transientKind (f (retries - 1)).body) ∧
      (sendLoop f 0 retries false none).2.count .write = retries ∧
      (sendLoop f 0 retries false none).2.count .sleepRetry = retries - 1) ∧
    ((∀ k, k < retries → (f k).body = .ioFailure) →
      (sendLoop f 0 retries false none).2 = ioTrace retries) ∧
    (∀ j r m, j < retries →
      (∀ k, k < j → isTransient (f k).body = true) →
      (f j).body = .deviceResponse r →
      classifyResponse r = .commandError m →
      (sendLoop f 0 retries false none).1 = .commandError m ∧
      (sendLoop f 0 retries false none).2.count .write = j + 1) := by
  refine ⟨?_, ?_, ?_⟩
  · intro htrans
    have := sendLoop_all_transient retries f 0 false none hpos
      (fun k hk => by
        rw [Nat.zero_add]
        exact ⟨hconn k hk, htrans k hk⟩)
    simpa using this
  · intro hio
    exact sendLoop_ioTrace retries f 0 none
      (fun k hk => by
        rw [Nat.zero_add]
        exact ⟨hconn k hk, hio k hk⟩)
  · intro j r m hj htrans hbody hclass
    have := sendLoop_commandError j f 0 retries false none r m hj
      (fun k hk => by
        rw [Nat.zero_add]
        exact ⟨hconn k (by omega), htrans k hk⟩)
      (by rw [Nat.zero_add]; exact hconn j hj)
      (by rw [Nat.zero_add]; exact hbody)
      hclass
    exact this

/-- C3 witness: a script whose three allowed attempts all fail with I/O
errors yields `ConnectionError` after exactly 3 writes, 2 retry delays and
the close/reopen trace; a script whose second attempt returns the device
error `"E02"` raises `CommandError` after exactly 2 writes. -/
theorem c3_retry_policy_witness :
    ((sendLoop (fun _ => ⟨true, .ioFailure⟩) 0 3 false none).1 =
      .connectionError .ioFailure ∧
     (sendLoop (fun _ => ⟨true, .ioFailure⟩) 0 3 false none).2.count .write = 3 ∧
     (sendLoop (fun _ => ⟨true, .ioFailure⟩) 0 3 false none).2.count .sleepRetry = 2 ∧
     (sendLoop (fun _ => ⟨true, .ioFailure⟩) 0 3 false none).2 = ioTrace 3) ∧
    ((sendLoop
        (fun i => if i = 0 then ⟨true, .ioFailure⟩ else ⟨true, .deviceResponse ("E02".data)⟩)
        0 3 false none).1 =
      .commandError ("Command error E02: E02".data) ∧
     (sendLoop
        (fun i => if i = 0 then ⟨true, .ioFailure⟩ else ⟨true, .deviceResponse ("E02".data)⟩)
        0 3 false none).2.count .write = 2) := by
  constructor
  · have h := c3_retry_policy (fun _ => ⟨true, .ioFailure⟩) 3 (by decide)
      (fun k _ => rfl)
    have h1 := h.1 (fun k _ => rfl)
    have h2 := h.2.1 (fun k _ => rfl)
    exact ⟨h1.1, h1.2.1, h1.2.2, h2⟩
  · have h := c3_retry_policy
      (fun i => if i = 0 then ⟨true, .ioFailure⟩ else ⟨true, .deviceResponse ("E02".data)⟩)
      3 (by decide)
      (fun k hk => by
        by_cases hk0 : k = 0 <;> simp [hk0])
    have h3 := h.2.2 1 ("E02".data) ("Command error E02: E02".data) (by decide)
      (fun k hk => by
        have : k = 0 := by omega
        simp [this, isTransient])
      (by decide)
      (by decide)
    exact h3


/-! ### Lemmas about the dict model -/

theorem lookupStr_setStr (d : DataDict) (k : String) (v : DVal) (k' : String) :
    lookupStr (setStr d k v) k' = if k' = k then some v else lookupStr d k' := by
  induction d with
  | nil =>
    by_cases h : k' = k
    · subst h; simp [setStr, lookupStr]
    · have h1 : ¬ (k = k') := fun hc => h hc.symm
      simp [setStr, lookupStr, h, h1]
  | cons kv rest ih =>
    obtain ⟨a, w⟩ := kv
    by_cases hak : a = k
    · subst hak
      by_cases h : k' = a
      · subst h; simp [setStr, lookupStr]
      · have h1 : ¬ (a = k') := fun hc => h hc.symm
        simp [setStr, lookupStr, h, h1]
    · by_cases h : k' = a
      · subst h
        have h1 : ¬ (k' = k) := fun hc => hak (hc ▸ rfl)
        simp [setStr, lookupStr, hak, h1]
      · have h1 : ¬ (a = k') := fun hc => h hc.symm
        simp [setStr, lookupStr, hak, h, h1, ih]

theorem lookupNat_setNat (m : List (Nat × Prim)) (i : Nat) (v : Prim) (j : Nat) :
    lookupNat (setNat m i v) j = if j = i then some v else lookupNat m j := by
  induction m with
  | nil =>
    by_cases h : j = i
    · subst h; simp [setNat, lookupNat]
    · have h1 : ¬ (i = j) := fun hc => h hc.symm
      simp [setNat, lookupNat, h, h1]
  | cons kv rest ih =>
    obtain ⟨a, w⟩ := kv
    by_cases hai : a = i
    · subst hai
      by_cases h : j = a
      · subst h; simp [setNat, lookupNat]
      · have h1 : ¬ (a = j) := fun hc => h hc.symm
        simp [setNat, lookupNat, h, h1]
    · by_cases h : j = a
      · subst h
        have h1 : ¬ (j = i) := fun hc => hai (hc ▸ rfl)
        simp [setNat, lookupNat, hai, h1]
      · have h1 : ¬ (a = j) := fun hc => h hc.symm
        simp [setNat, lookupNat, hai, h, h1, ih]

theorem lookupStr_none_of_not_mem (d : DataDict) (k : String)
    (h : k ∉ d.map Prod.fst) : lookupStr d k = none := by
  induction d with
  | nil => rfl
  | cons kv rest ih =>
    obtain ⟨a, w⟩ := kv
    simp only [List.map_cons, List.mem_cons] at h
    push_neg at h
    have h1 : ¬ (a = k) := fun hc => h.1 hc.symm
    simp [lookupStr, h1, ih h.2]

theorem lookupNat_none_of_not_mem (m : List (Nat × Prim)) (i : Nat)
    (h : i ∉ m.map Prod.fst) : lookupNat m i = none := by
  induction m with
  | nil => rfl
  | cons kv rest ih =>
    obtain ⟨a, w⟩ := kv
    simp only [List.map_cons, List.mem_cons] at h
    push_neg at h
    have h1 : ¬ (a = i) := fun hc => h.1 hc.symm
    simp [lookupNat, h1, ih h.2]

theorem lookupNat_updateNat (upd : List (Nat × Prim)) :
    ∀ (base : List (Nat × Prim)) (i : Nat), ((upd.map Prod.fst).Nodup) →
      lookupNat (updateNat base upd) i =
        (lookupNat upd i).or (lookupNat base i) := by
  induction upd with
  | nil => intro base i _; simp [updateNat, lookupNat, Option.none_or]
  | cons kv rest ih =>
    intro base i hnd
    obtain ⟨k, v⟩ := kv
    simp only [List.map_cons, List.nodup_cons] at hnd
    have step : updateNat base ((k, v) :: rest) = updateNat (setNat base k v) rest := rfl
    rw [step, ih (setNat base k v) i hnd.2]
    by_cases h : i = k
    · subst h
      rw [lookupNat_none_of_not_mem rest i hnd.1, lookupNat_setNat]
      simp [lookupNat, Option.none_or]
    · have h1 : ¬ (k = i) := fun hc => h hc.symm
      rw [lookupNat_setNat]
      simp [lookupNat, h, h1]

theorem keys_setStr (d : DataDict) (k : String) (v : DVal) :
    (setStr d k v).map Prod.fst =
      if k ∈ d.map Prod.fst then d.map Prod.fst else d.map Prod.fst ++ [k] := by
  induction d with
  | nil => simp [setStr]
  | cons kv rest ih =>
    obtain ⟨a, w⟩ := kv
    by_cases hak : a = k
    · subst hak
      simp [setStr]
    · have h1 : ¬ (k = a) := fun hc => hak hc.symm
      by_cases hmem : k ∈ rest.map Prod.fst
      · simp [setStr, hak, ih, hmem, h1]
      · simp [setStr, hak, ih, hmem, h1]

theorem keys_setNat (m : List (Nat × Prim)) (i : Nat) (v : Prim) :
    (setNat m i v).map Prod.fst =
      if i ∈ m.map Prod.fst then m.map Prod.fst else m.map Prod.fst ++ [i] := by
  induction m with
  | nil => simp [setNat]
  | cons kv rest ih =>
    obtain ⟨a, w⟩ := kv
    by_cases hai : a = i
    · subst hai
      simp [setNat]
    · have h1 : ¬ (i = a) := fun hc => hai hc.symm
      by_cases hmem : i ∈ rest.map Prod.fst
      · simp [setNat, hai, ih, hmem, h1]
      · simp [setNat, hai, ih, hmem, h1]

theorem nodupKeys_setStr (d : DataDict) (k : String) (v : DVal)
    (h : (d.map Prod.fst).Nodup) : ((setStr d k v).map Prod.fst).Nodup := by
  rw [keys_setStr]
  by_cases hmem : k ∈ d.map Prod.fst
  · simpa [hmem] using h
  · simp only [hmem, if_false]
    simp [List.nodup_append, h, hmem]

theorem nodupKeys_setNat (m : List (Nat × Prim)) (i : Nat) (v : Prim)
    (h : (m.map Prod.fst).Nodup) : ((setNat m i v).map Prod.fst).Nodup := by
  rw [keys_setNat]
  by_cases hmem : i ∈ m.map Prod.fst
  · simpa [hmem] using h
  · simp only [hmem, if_false]
    simp [List.nodup_append, h, hmem]

theorem lookupStr_mem (d : DataDict) (k : String) (v : DVal)
    (h : lookupStr d k = some v) : (k, v) ∈ d := by
  induction d with
  | nil => exact absurd h (by simp [lookupStr])
  | cons kv rest ih =>
    obtain ⟨a, w⟩ := kv
    by_cases hak : a = k
    · subst hak
      have h2 : w = v := by
        have h3 : (if a = a then some w else lookupStr rest a) = some v := h
        simpa using h3
      rw [← h2]
      exact List.mem_cons_self _ _
    · simp only [lookupStr, if_neg hak] at h
      exact List.mem_cons_of_mem _ (ih h)

theorem lookup_merge (ov : DataDict) :
    ∀ (lk : DataDict) (key : String), ((ov.map Prod.fst).Nodup) →
      lookupStr (merge_data lk ov) key =
        match lookupStr ov key, lookupStr lk key with
        | some (.table t), some (.table mt) => some (.table (updateNat mt t))
        | some v, _ => some v
        | none, v => v := by
  induction ov with
  | nil =>
    intro lk key _
    rfl
  | cons kv rest ih =>
    intro lk key hnd
    obtain ⟨k, v⟩ := kv
    simp only [List.map_cons, List.nodup_cons] at hnd
    have step : merge_data lk ((k, v) :: rest) =
        merge_data
          (match v, lookupStr lk k with
           | .table t, some (.table mt) => setStr lk k (.table (updateNat mt t))
           | v, _ => setStr lk k v)
          rest := rfl
    rw [step, ih _ key hnd.2]
    clear step
    by_cases hk : key = k
    · subst hk
      rw [lookupStr_none_of_not_mem rest key hnd.1]
      cases v with
      | scalar p =>
        cases hlk : lookupStr lk key with
        | none => simp [lookupStr, lookupStr_setStr]
        | some w => cases w <;> simp [lookupStr, lookupStr_setStr]
      | table t =>
        cases hlk : lookupStr lk key with
        | none => simp [lookupStr, hlk, lookupStr_setStr]
        | some w => cases w <;> simp [lookupStr, hlk, lookupStr_setStr]
    · have hk1 : ¬ (k = key) := fun hc => hk hc.symm
      have htrans :
          lookupStr
            (match v, lookupStr lk k with
             | .table t, some (.table mt) => setStr lk k (.table (updateNat mt t))
             | v, _ => setStr lk k v) key = lookupStr lk key := by
        cases v with
        | scalar p => simp [lookupStr_setStr, hk]
        | table t =>
          cases lookupStr lk k with
          | none => simp [lookupStr_setStr, hk]
          | some w => cases w <;> simp [lookupStr_setStr, hk]
      rw [htrans]
      have hrest : lookupStr ((k, v) :: rest) key = lookupStr rest key := by
        simp [lookupStr, hk1]
      rw [hrest]


/-! ### Transport lemmas for the status-merge pipeline -/

theorem lookupStr_setScalarIf_ne {d : DataDict} {key : String} {v : Option Prim}
    {key' : String} (h : key' ≠ key) :
    lookupStr (setScalarIf d key v) key' = lookupStr d key' := by
  cases v with
  | none => rfl
  | some p => simp [setScalarIf, lookupStr_setStr, h]

theorem lookupStr_setScalarIf_self {d : DataDict} {key : String} {v : Option Prim} :
    lookupStr (setScalarIf d key v) key =
      match v with
      | some p => some (.scalar p)
      | none => lookupStr d key := by
  cases v with
  | none => rfl
  | some p => simp [setScalarIf, lookupStr_setStr]

theorem lookupStr_setWholesaleIf_ne {d : DataDict} {key : String}
    {new : List (Nat × Prim)} {key' : String} (h : key' ≠ key) :
    lookupStr (setWholesaleIf d key new) key' = lookupStr d key' := by
  by_cases hn : new = [] <;> simp [setWholesaleIf, hn, lookupStr_setStr, h]

theorem lookupStr_setWholesaleIf_self {d : DataDict} {key : String}
    {new : List (Nat × Prim)} :
    lookupStr (setWholesaleIf d key new) key =
      if new = [] then lookupStr d key else some (.table new) := by
  by_cases hn : new = [] <;> simp [setWholesaleIf, hn, lookupStr_setStr]

theorem lookupStr_setExtAudioModeIf_ne {d : DataDict} {v : Option Prim}
    {key' : String} (h : key' ≠ "ext_audio_mode") :
    lookupStr (setExtAudioModeIf d v) key' = lookupStr d key' := by
  cases v with
  | none => rfl
  | some p =>
    by_cases ht : primTruthy p <;> simp [setExtAudioModeIf, ht, lookupStr_setStr, h]

theorem lookupStr_setExtAudioModeIf_self {d : DataDict} {v : Option Prim} :
    lookupStr (setExtAudioModeIf d v) "ext_audio_mode" =
      match v with
      | some p =>
        if primTruthy p then some (.scalar p) else lookupStr d "ext_audio_mode"
      | none => lookupStr d "ext_audio_mode" := by
  cases v with
  | none => rfl
  | some p =>
    by_cases ht : primTruthy p <;> simp [setExtAudioModeIf, ht, lookupStr_setStr]

theorem updGroup_empty (d : DataDict) (key : String) : updGroup d key [] = some d := by
  simp [updGroup]

theorem lookupStr_updGroup_ne {d d' : DataDict} {key : String}
    {new : List (Nat × Prim)} (h : updGroup d key new = some d')
    {key' : String} (hne : key' ≠ key) : lookupStr d' key' = lookupStr d key' := by
  by_cases hn : new = []
  · rw [hn, updGroup_empty, Option.some.injEq] at h
    rw [← h]
  · simp only [updGroup, if_neg hn] at h
    cases hl : lookupStr d key with
    | none => rw [hl] at h; exact Option.noConfusion h
    | some w =>
      cases w with
      | scalar p => rw [hl] at h; exact Option.noConfusion h
      | table m =>
        rw [hl] at h
        have h2 : setStr d key (.table (updateNat m new)) = d' := Option.some.inj h
        rw [← h2, lookupStr_setStr]
        simp [hne]

theorem updGroup_self {d d' : DataDict} {key : String} {new : List (Nat × Prim)}
    (h : updGroup d key new = some d') (hn : new ≠ []) :
    ∃ m, lookupStr d key = some (.table m) ∧
      lookupStr d' key = some (.table (updateNat m new)) := by
  simp only [updGroup, if_neg hn] at h
  cases hl : lookupStr d key with
  | none => rw [hl] at h; exact Option.noConfusion h
  | some w =>
    cases w with
    | scalar p => rw [hl] at h; exact Option.noConfusion h
    | table m =>
      rw [hl] at h
      have h2 := Option.some.inj h
      exact ⟨m, rfl, by rw [← h2, lookupStr_setStr]; simp⟩

/-- Per-key effect of `_update_data_from_status` on the cache: scalar members
follow the presence checks, `routing`/`output_audio_mute` are replaced
wholesale when truthy, the per-port groups are dict-merged when non-empty and
left untouched when absent or empty. -/
theorem update_data_lookup (lk : DataDict) (st : FullStatus) (dfin : DataDict)
    (h : update_data_from_status lk st = some dfin) :
    (lookupStr dfin "power" =
      match st.power with
      | some p => some (.scalar p)
      | none => lookupStr lk "power") ∧
    (lookupStr dfin "beep" =
      match st.beep with
      | some p => some (.scalar p)
      | none => lookupStr lk "beep") ∧
    (lookupStr dfin "lock" =
      match st.lock with
      | some p => some (.scalar p)
      | none => lookupStr lk "lock") ∧
    (lookupStr dfin "routing" =
      if st.routing = [] then lookupStr lk "routing" else some (.table st.routing)) ∧
    (lookupStr dfin "output_audio_mute" =
      if st.output_audio_mute = [] then lookupStr lk "output_audio_mute"
      else some (.table st.output_audio_mute)) ∧
    (lookupStr dfin "ext_audio_mode" =
      match st.ext_audio_mode with
      | some p =>
        if primTruthy p then some (.scalar p) else lookupStr lk "ext_audio_mode"
      | none => lookupStr lk "ext_audio_mode") ∧
    (st.input_status = [] →
      lookupStr dfin "input_status" = lookupStr lk "input_status") ∧
    (st.input_status ≠ [] → ∃ m, lookupStr lk "input_status" = some (.table m) ∧
      lookupStr dfin "input_status" = some (.table (updateNat m st.input_status))) ∧
    (st.output_status = [] →
      lookupStr dfin "output_status" = lookupStr lk "output_status") ∧
    (st.output_status ≠ [] → ∃ m, lookupStr lk "output_status" = some (.table m) ∧
      lookupStr dfin "output_status" = some (.table (updateNat m st.output_status))) ∧
    (st.output_hdcp = [] →
      lookupStr dfin "output_hdcp" = lookupStr lk "output_hdcp") ∧
    (st.output_hdcp ≠ [] → ∃ m, lookupStr lk "output_hdcp" = some (.table m) ∧
      lookupStr dfin "output_hdcp" = some (.table (updateNat m st.output_hdcp))) ∧
    (st.output_stream = [] →
      lookupStr dfin "output_stream" = lookupStr lk "output_stream") ∧
    (st.output_stream ≠ [] → ∃ m, lookupStr lk "output_stream" = some (.table m) ∧
      lookupStr dfin "output_stream" = some (.table (updateNat m st.output_stream))) ∧
    (st.output_scaler = [] →
      lookupStr dfin "output_scaler" = lookupStr lk "output_scaler") ∧
    (st.output_scaler ≠ [] → ∃ m, lookupStr lk "output_scaler" = some (.table m) ∧
      lookupStr dfin "output_scaler" = some (.table (updateNat m st.output_scaler))) ∧
    (st.output_hdr = [] →
      lookupStr dfin "output_hdr" = lookupStr lk "output_hdr") ∧
    (st.output_hdr ≠ [] → ∃ m, lookupStr lk "output_hdr" = some (.table m) ∧
      lookupStr dfin "output_hdr" = some (.table (updateNat m st.output_hdr))) ∧
    (st.output_arc = [] →
      lookupStr dfin "output_arc" = lookupStr lk "output_arc") ∧
    (st.output_arc ≠ [] → ∃ m, lookupStr lk "output_arc" = some (.table m) ∧
      lookupStr dfin "output_arc" = some (.table (updateNat m st.output_arc))) ∧
    (st.input_edid = [] →
      lookupStr dfin "input_edid" = lookupStr lk "input_edid") ∧
    (st.input_edid ≠ [] → ∃ m, lookupStr lk "input_edid" = some (.table m) ∧
      lookupStr dfin "input_edid" = some (.table (updateNat m st.input_edid))) ∧
    (st.output_ext_audio = [] →
      lookupStr dfin "output_ext_audio" = lookupStr lk "output_ext_audio") ∧
    (st.output_ext_audio ≠ [] → ∃ m,
      lookupStr lk "output_ext_audio" = some (.table m) ∧
      lookupStr dfin "output_ext_audio" = some (.table (updateNat m st.output_ext_audio))) ∧
    (st.output_ext_audio_source = [] →
      lookupStr dfin "output_ext_audio_source" = lookupStr lk "output_ext_audio_source") ∧
    (st.output_ext_audio_source ≠ [] → ∃ m,
      lookupStr lk "output_ext_audio_source" = some (.table m) ∧
      lookupStr dfin "output_ext_audio_source" =
        some (.table (updateNat m st.output_ext_audio_source))) := by
  simp only [update_data_from_status] at h
  obtain ⟨d5, h5, h⟩ := Option.bind_eq_some.mp h
  obtain ⟨d6, h6, h⟩ := Option.bind_eq_some.mp h
  obtain ⟨d7, h7, h⟩ := Option.bind_eq_some.mp h
  obtain ⟨d8, h8, h⟩ := Option.bind_eq_some.mp h
  obtain ⟨d9, h9, h⟩ := Option.bind_eq_some.mp h
  obtain ⟨d10, h10, h⟩ := Option.bind_eq_some.mp h
  obtain ⟨d11, h11, h⟩ := Option.bind_eq_some.mp h
  obtain ⟨d13, h13, h⟩ := Option.bind_eq_some.mp h
  obtain ⟨d14, h14, hfin⟩ := Option.bind_eq_some.mp h
  refine ⟨?_, ?_, ?_, ?_, ?_, ?_, ?_, ?_, ?_, ?_, ?_, ?_, ?_, ?_, ?_, ?_, ?_, ?_,
    ?_, ?_, ?_, ?_, ?_, ?_, ?_, ?_⟩
  · rw [lookupStr_updGroup_ne hfin (by decide), lookupStr_setExtAudioModeIf_ne (by decide),
      lookupStr_updGroup_ne h14 (by decide), lookupStr_updGroup_ne h13 (by decide),
      lookupStr_setWholesaleIf_ne (by decide), lookupStr_updGroup_ne h11 (by decide),
      lookupStr_updGroup_ne h10 (by decide), lookupStr_updGroup_ne h9 (by decide),
      lookupStr_updGroup_ne h8 (by decide), lookupStr_updGroup_ne h7 (by decide),
      lookupStr_updGroup_ne h6 (by decide), lookupStr_updGroup_ne h5 (by decide),
      lookupStr_setWholesaleIf_ne (by decide), lookupStr_setScalarIf_ne (by decide),
      lookupStr_setScalarIf_ne (by decide), lookupStr_setScalarIf_self]
  · rw [lookupStr_updGroup_ne hfin (by decide), lookupStr_setExtAudioModeIf_ne (by decide),
      lookupStr_updGroup_ne h14 (by decide), lookupStr_updGroup_ne h13 (by decide),
      lookupStr_setWholesaleIf_ne (by decide), lookupStr_updGroup_ne h11 (by decide),
      lookupStr_updGroup_ne h10 (by decide), lookupStr_updGroup_ne h9 (by decide),
      lookupStr_updGroup_ne h8 (by decide), lookupStr_updGroup_ne h7 (by decide),
      lookupStr_updGroup_ne h6 (by decide), lookupStr_updGroup_ne h5 (by decide),
      lookupStr_setWholesaleIf_ne (by decide), lookupStr_setScalarIf_ne (by decide),
      lookupStr_setScalarIf_self, lookupStr_setScalarIf_ne (by decide)]
  · rw [lookupStr_updGroup_ne hfin (by decide), lookupStr_setExtAudioModeIf_ne (by decide),
      lookupStr_updGroup_ne h14 (by decide), lookupStr_updGroup_ne h13 (by decide),
      lookupStr_setWholesaleIf_ne (by decide), lookupStr_updGroup_ne h11 (by decide),
      lookupStr_updGroup_ne h10 (by decide), lookupStr_updGroup_ne h9 (by decide),
      lookupStr_updGroup_ne h8 (by decide), lookupStr_updGroup_ne h7 (by decide),
      lookupStr_updGroup_ne h6 (by decide), lookupStr_updGroup_ne h5 (by decide),
      lookupStr_setWholesaleIf_ne (by decide), lookupStr_setScalarIf_self,
      lookupStr_setScalarIf_ne (by decide), lookupStr_setScalarIf_ne (by decide)]
  · rw [lookupStr_updGroup_ne hfin (by decide), lookupStr_setExtAudioModeIf_ne (by decide),
      lookupStr_updGroup_ne h14 (by decide), lookupStr_updGroup_ne h13 (by decide),
      lookupStr_setWholesaleIf_ne (by decide), lookupStr_updGroup_ne h11 (by decide),
      lookupStr_updGroup_ne h10 (by decide), lookupStr_updGroup_ne h9 (by decide),
      lookupStr_updGroup_ne h8 (by decide), lookupStr_updGroup_ne h7 (by decide),
      lookupStr_updGroup_ne h6 (by decide), lookupStr_updGroup_ne h5 (by decide),
      lookupStr_setWholesaleIf_self, lookupStr_setScalarIf_ne (by decide),
      lookupStr_setScalarIf_ne (by decide), lookupStr_setScalarIf_ne (by decide)]
  · rw [lookupStr_updGroup_ne hfin (by decide), lookupStr_setExtAudioModeIf_ne (by decide),
      lookupStr_updGroup_ne h14 (by decide), lookupStr_updGroup_ne h13 (by decide),
      lookupStr_setWholesaleIf_self, lookupStr_updGroup_ne h11 (by decide),
      lookupStr_updGroup_ne h10 (by decide), lookupStr_updGroup_ne h9 (by decide),
      lookupStr_updGroup_ne h8 (by decide), lookupStr_updGroup_ne h7 (by decide),
      lookupStr_updGroup_ne h6 (by decide), lookupStr_updGroup_ne h5 (by decide),
      lookupStr_setWholesaleIf_ne (by decide), lookupStr_setScalarIf_ne (by decide),
      lookupStr_setScalarIf_ne (by decide), lookupStr_setScalarIf_ne (by decide)]
  · rw [lookupStr_updGroup_ne hfin (by decide), lookupStr_setExtAudioModeIf_self,
      lookupStr_updGroup_ne h14 (by decide), lookupStr_updGroup_ne h13 (by decide),
      lookupStr_setWholesaleIf_ne (by decide), lookupStr_updGroup_ne h11 (by decide),
      lookupStr_updGroup_ne h10 (by decide), lookupStr_updGroup_ne h9 (by decide),
      lookupStr_updGroup_ne h8 (by decide), lookupStr_updGroup_ne h7 (by decide),
      lookupStr_updGroup_ne h6 (by decide), lookupStr_updGroup_ne h5 (by decide),
      lookupStr_setWholesaleIf_ne (by decide), lookupStr_setScalarIf_ne (by decide),
      lookupStr_setScalarIf_ne (by decide), lookupStr_setScalarIf_ne (by decide)]
  · intro he
    rw [he, updGroup_empty, Option.some.injEq] at h5
    rw [lookupStr_updGroup_ne hfin (by decide), lookupStr_setExtAudioModeIf_ne (by decide),
      lookupStr_updGroup_ne h14 (by decide), lookupStr_updGroup_ne h13 (by decide),
      lookupStr_setWholesaleIf_ne (by decide), lookupStr_updGroup_ne h11 (by decide),
      lookupStr_updGroup_ne h10 (by decide), lookupStr_updGroup_ne h9 (by decide),
      lookupStr_updGroup_ne h8 (by decide), lookupStr_updGroup_ne h7 (by decide),
      lookupStr_updGroup_ne h6 (by decide), ← h5,
      lookupStr_setWholesaleIf_ne (by decide), lookupStr_setScalarIf_ne (by decide),
      lookupStr_setScalarIf_ne (by decide), lookupStr_setScalarIf_ne (by decide)]
  · intro hne
    obtain ⟨m, hm, hm2⟩ := updGroup_self h5 hne
    rw [lookupStr_setWholesaleIf_ne (by decide), lookupStr_setScalarIf_ne (by decide),
      lookupStr_setScalarIf_ne (by decide), lookupStr_setScalarIf_ne (by decide)] at hm
    refine ⟨m, hm, ?_⟩
    rw [lookupStr_updGroup_ne hfin (by decide), lookupStr_setExtAudioModeIf_ne (by decide),
      lookupStr_updGroup_ne h14 (by decide), lookupStr_updGroup_ne h13 (by decide),
      lookupStr_setWholesaleIf_ne (by decide), lookupStr_updGroup_ne h11 (by decide),
      lookupStr_updGroup_ne h10 (by decide), lookupStr_updGroup_ne h9 (by decide),
      lookupStr_updGroup_ne h8 (by decide), lookupStr_updGroup_ne h7 (by decide),
      lookupStr_updGroup_ne h6 (by decide)]
    exact hm2
  · intro he
    rw [he, updGroup_empty, Option.some.injEq] at h6
    rw [lookupStr_updGroup_ne hfin (by decide), lookupStr_setExtAudioModeIf_ne (by decide),
      lookupStr_updGroup_ne h14 (by decide), lookupStr_updGroup_ne h13 (by decide),
      lookupStr_setWholesaleIf_ne (by decide), lookupStr_updGroup_ne h11 (by decide),
      lookupStr_updGroup_ne h10 (by decide), lookupStr_updGroup_ne h9 (by decide),
      lookupStr_updGroup_ne h8 (by decide), lookupStr_updGroup_ne h7 (by decide),
      ← h6, lookupStr_updGroup_ne h5 (by decide),
      lookupStr_setWholesaleIf_ne (by decide), lookupStr_setScalarIf_ne (by decide),
      lookupStr_setScalarIf_ne (by decide), lookupStr_setScalarIf_ne (by decide)]
  · intro hne
    obtain ⟨m, hm, hm2⟩ := updGroup_self h6 hne
    rw [lookupStr_updGroup_ne h5 (by decide),
      lookupStr_setWholesaleIf_ne (by decide), lookupStr_setScalarIf_ne (by decide),
      lookupStr_setScalarIf_ne (by decide), lookupStr_setScalarIf_ne (by decide)] at hm
    refine ⟨m, hm, ?_⟩
    rw [lookupStr_updGroup_ne hfin (by decide), lookupStr_setExtAudioModeIf_ne (by decide),
      lookupStr_updGroup_ne h14 (by decide), lookupStr_updGroup_ne h13 (by decide),
      lookupStr_setWholesaleIf_ne (by decide), lookupStr_updGroup_ne h11 (by decide),
      lookupStr_updGroup_ne h10 (by decide), lookupStr_updGroup_ne h9 (by decide),
      lookupStr_updGroup_ne h8 (by decide), lookupStr_updGroup_ne h7 (by decide)]
    exact hm2
  · intro he
    rw [he, updGroup_empty, Option.some.injEq] at h7
    rw [lookupStr_updGroup_ne hfin (by decide), lookupStr_setExtAudioModeIf_ne (by decide),
      lookupStr_updGroup_ne h14 (by decide), lookupStr_updGroup_ne h13 (by decide),
      lookupStr_setWholesaleIf_ne (by decide), lookupStr_updGroup_ne h11 (by decide),
      lookupStr_updGroup_ne h10 (by decide), lookupStr_updGroup_ne h9 (by decide),
      lookupStr_updGroup_ne h8 (by decide), ← h7,
      lookupStr_updGroup_ne h6 (by decide), lookupStr_updGroup_ne h5 (by decide),
      lookupStr_setWholesaleIf_ne (by decide), lookupStr_setScalarIf_ne (by decide),
      lookupStr_setScalarIf_ne (by decide), lookupStr_setScalarIf_ne (by decide)]
  · intro hne
    obtain ⟨m, hm, hm2⟩ := updGroup_self h7 hne
    rw [lookupStr_updGroup_ne h6 (by decide), lookupStr_updGroup_ne h5 (by decide),
      lookupStr_setWholesaleIf_ne (by decide), lookupStr_setScalarIf_ne (by decide),
      lookupStr_setScalarIf_ne (by decide), lookupStr_setScalarIf_ne (by decide)] at hm
    refine ⟨m, hm, ?_⟩
    rw [lookupStr_updGroup_ne hfin (by decide), lookupStr_setExtAudioModeIf_ne (by decide),
      lookupStr_updGroup_ne h14 (by decide), lookupStr_updGroup_ne h13 (by decide),
      lookupStr_setWholesaleIf_ne (by decide), lookupStr_updGroup_ne h11 (by decide),
      lookupStr_updGroup_ne h10 (by decide), lookupStr_updGroup_ne h9 (by decide),
      lookupStr_updGroup_ne h8 (by decide)]
    exact hm2
  · intro he
    rw [he, updGroup_empty, Option.some.injEq] at h8
    rw [lookupStr_updGroup_ne hfin (by decide), lookupStr_setExtAudioModeIf_ne (by decide),
      lookupStr_updGroup_ne h14 (by decide), lookupStr_updGroup_ne h13 (by decide),
      lookupStr_setWholesaleIf_ne (by decide), lookupStr_updGroup_ne h11 (by decide),
      lookupStr_updGroup_ne h10 (by decide), lookupStr_updGroup_ne h9 (by decide),
      ← h8, lookupStr_updGroup_ne h7 (by decide),
      lookupStr_updGroup_ne h6 (by decide), lookupStr_updGroup_ne h5 (by decide),
      lookupStr_setWholesaleIf_ne (by decide), lookupStr_setScalarIf_ne (by decide),
      lookupStr_setScalarIf_ne (by decide), lookupStr_setScalarIf_ne (by decide)]
  · intro hne
    obtain ⟨m, hm, hm2⟩ := updGroup_self h8 hne
    rw [lookupStr_updGroup_ne h7 (by decide), lookupStr_updGroup_ne h6 (by decide),
      lookupStr_updGroup_ne h5 (by decide),
      lookupStr_setWholesaleIf_ne (by decide), lookupStr_setScalarIf_ne (by decide),
      lookupStr_setScalarIf_ne (by decide), lookupStr_setScalarIf_ne (by decide)] at hm
    refine ⟨m, hm, ?_⟩
    rw [lookupStr_updGroup_ne hfin (by decide), lookupStr_setExtAudioModeIf_ne (by decide),
      lookupStr_updGroup_ne h14 (by decide), lookupStr_updGroup_ne h13 (by decide),
      lookupStr_setWholesaleIf_ne (by decide), lookupStr_updGroup_ne h11 (by decide),
      lookupStr_updGroup_ne h10 (by decide), lookupStr_updGroup_ne h9 (by decide)]
    exact hm2
  · intro he
    rw [he, updGroup_empty, Option.some.injEq] at h9
    rw [lookupStr_updGroup_ne hfin (by decide), lookupStr_setExtAudioModeIf_ne (by decide),
      lookupStr_updGroup_ne h14 (by decide), lookupStr_updGroup_ne h13 (by decide),
      lookupStr_setWholesaleIf_ne (by decide), lookupStr_updGroup_ne h11 (by decide),
      lookupStr_updGroup_ne h10 (by decide), ← h9,
      lookupStr_updGroup_ne h8 (by decide), lookupStr_updGroup_ne h7 (by decide),
      lookupStr_updGroup_ne h6 (by decide), lookupStr_updGroup_ne h5 (by decide),
      lookupStr_setWholesaleIf_ne (by decide), lookupStr_setScalarIf_ne (by decide),
      lookupStr_setScalarIf_ne (by decide), lookupStr_setScalarIf_ne (by decide)]
  · intro hne
    obtain ⟨m, hm, hm2⟩ := updGroup_self h9 hne
    rw [lookupStr_updGroup_ne h8 (by decide), lookupStr_updGroup_ne h7 (by decide),
      lookupStr_updGroup_ne h6 (by decide), lookupStr_updGroup_ne h5 (by decide),
      lookupStr_setWholesaleIf_ne (by decide), lookupStr_setScalarIf_ne (by decide),
      lookupStr_setScalarIf_ne (by decide), lookupStr_setScalarIf_ne (by decide)] at hm
    refine ⟨m, hm, ?_⟩
    rw [lookupStr_updGroup_ne hfin (by decide), lookupStr_setExtAudioModeIf_ne (by decide),
      lookupStr_updGroup_ne h14 (by decide), lookupStr_updGroup_ne h13 (by decide),
      lookupStr_setWholesaleIf_ne (by decide), lookupStr_updGroup_ne h11 (by decide),
      lookupStr_updGroup_ne h10 (by decide)]
    exact hm2
  · intro he
    rw [he, updGroup_empty, Option.some.injEq] at h10
    rw [lookupStr_updGroup_ne hfin (by decide), lookupStr_setExtAudioModeIf_ne (by decide),
      lookupStr_updGroup_ne h14 (by decide), lookupStr_updGroup_ne h13 (by decide),
      lookupStr_setWholesaleIf_ne (by decide), lookupStr_updGroup_ne h11 (by decide),
      ← h10, lookupStr_updGroup_ne h9 (by decide),
      lookupStr_updGroup_ne h8 (by decide), lookupStr_updGroup_ne h7 (by decide),
      lookupStr_updGroup_ne h6 (by decide), lookupStr_updGroup_ne h5 (by decide),
      lookupStr_setWholesaleIf_ne (by decide), lookupStr_setScalarIf_ne (by decide),
      lookupStr_setScalarIf_ne (by decide), lookupStr_setScalarIf_ne (by decide)]
  · intro hne
    obtain ⟨m, hm, hm2⟩ := updGroup_self h10 hne
    rw [lookupStr_updGroup_ne h9 (by decide), lookupStr_updGroup_ne h8 (by decide),
      lookupStr_updGroup_ne h7 (by decide), lookupStr_updGroup_ne h6 (by decide),
      lookupStr_updGroup_ne h5 (by decide),
      lookupStr_setWholesaleIf_ne (by decide), lookupStr_setScalarIf_ne (by decide),
      lookupStr_setScalarIf_ne (by decide), lookupStr_setScalarIf_ne (by decide)] at hm
    refine ⟨m, hm, ?_⟩
    rw [lookupStr_updGroup_ne hfin (by decide), lookupStr_setExtAudioModeIf_ne (by decide),
      lookupStr_updGroup_ne h14 (by decide), lookupStr_updGroup_ne h13 (by decide),
      lookupStr_setWholesaleIf_ne (by decide), lookupStr_updGroup_ne h11 (by decide)]
    exact hm2
  · intro he
    rw [he, updGroup_empty, Option.some.injEq] at h11
    rw [lookupStr_updGroup_ne hfin (by decide), lookupStr_setExtAudioModeIf_ne (by decide),
      lookupStr_updGroup_ne h14 (by decide), lookupStr_updGroup_ne h13 (by decide),
      lookupStr_setWholesaleIf_ne (by decide), ← h11,
      lookupStr_updGroup_ne h10 (by decide), lookupStr_updGroup_ne h9 (by decide),
      lookupStr_updGroup_ne h8 (by decide), lookupStr_updGroup_ne h7 (by decide),
      lookupStr_updGroup_ne h6 (by decide), lookupStr_updGroup_ne h5 (by decide),
      lookupStr_setWholesaleIf_ne (by decide), lookupStr_setScalarIf_ne (by decide),
      lookupStr_setScalarIf_ne (by decide), lookupStr_setScalarIf_ne (by decide)]
  · intro hne
    obtain ⟨m, hm, hm2⟩ := updGroup_self h11 hne
    rw [lookupStr_updGroup_ne h10 (by decide), lookupStr_updGroup_ne h9 (by decide),
      lookupStr_updGroup_ne h8 (by decide), lookupStr_updGroup_ne h7 (by decide),
      lookupStr_updGroup_ne h6 (by decide), lookupStr_updGroup_ne h5 (by decide),
      lookupStr_setWholesaleIf_ne (by decide), lookupStr_setScalarIf_ne (by decide),
      lookupStr_setScalarIf_ne (by decide), lookupStr_setScalarIf_ne (by decide)] at hm
    refine ⟨m, hm, ?_⟩
    rw [lookupStr_updGroup_ne hfin (by decide), lookupStr_setExtAudioModeIf_ne (by decide),
      lookupStr_updGroup_ne h14 (by decide), lookupStr_updGroup_ne h13 (by decide),
      lookupStr_setWholesaleIf_ne (by decide)]
    exact hm2
  · intro he
    rw [he, updGroup_empty, Option.some.injEq] at h13
    rw [lookupStr_updGroup_ne hfin (by decide), lookupStr_setExtAudioModeIf_ne (by decide),
      lookupStr_updGroup_ne h14 (by decide), ← h13,
      lookupStr_setWholesaleIf_ne (by decide), lookupStr_updGroup_ne h11 (by decide),
      lookupStr_updGroup_ne h10 (by decide), lookupStr_updGroup_ne h9 (by decide),
      lookupStr_updGroup_ne h8 (by decide), lookupStr_updGroup_ne h7 (by decide),
      lookupStr_updGroup_ne h6 (by decide), lookupStr_updGroup_ne h5 (by decide),
      lookupStr_setWholesaleIf_ne (by decide), lookupStr_setScalarIf_ne (by decide),
      lookupStr_setScalarIf_ne (by decide), lookupStr_setScalarIf_ne (by decide)]
  · intro hne
    obtain ⟨m, hm, hm2⟩ := updGroup_self h13 hne
    rw [lookupStr_setWholesaleIf_ne (by decide), lookupStr_updGroup_ne h11 (by decide),
      lookupStr_updGroup_ne h10 (by decide), lookupStr_updGroup_ne h9 (by decide),
      lookupStr_updGroup_ne h8 (by decide), lookupStr_updGroup_ne h7 (by decide),
      lookupStr_updGroup_ne h6 (by decide), lookupStr_updGroup_ne h5 (by decide),
      lookupStr_setWholesaleIf_ne (by decide), lookupStr_setScalarIf_ne (by decide),
      lookupStr_setScalarIf_ne (by decide), lookupStr_setScalarIf_ne (by decide)] at hm
    refine ⟨m, hm, ?_⟩
    rw [lookupStr_updGroup_ne hfin (by decide), lookupStr_setExtAudioModeIf_ne (by decide),
      lookupStr_updGroup_ne h14 (by decide)]
    exact hm2
  · intro he
    rw [he, updGroup_empty, Option.some.injEq] at h14
    rw [lookupStr_updGroup_ne hfin (by decide), lookupStr_setExtAudioModeIf_ne (by decide),
      ← h14, lookupStr_updGroup_ne h13 (by decide),
      lookupStr_setWholesaleIf_ne (by decide), lookupStr_updGroup_ne h11 (by decide),
      lookupStr_updGroup_ne h10 (by decide), lookupStr_updGroup_ne h9 (by decide),
      lookupStr_updGroup_ne h8 (by decide), lookupStr_updGroup_ne h7 (by decide),
      lookupStr_updGroup_ne h6 (by decide), lookupStr_updGroup_ne h5 (by decide),
      lookupStr_setWholesaleIf_ne (by decide), lookupStr_setScalarIf_ne (by decide),
      lookupStr_setScalarIf_ne (by decide), lookupStr_setScalarIf_ne (by decide)]
  · intro hne
    obtain ⟨m, hm, hm2⟩ := updGroup_self h14 hne
    rw [lookupStr_updGroup_ne h13 (by decide),
      lookupStr_setWholesaleIf_ne (by decide), lookupStr_updGroup_ne h11 (by decide),
      lookupStr_updGroup_ne h10 (by decide), lookupStr_updGroup_ne h9 (by decide),
      lookupStr_updGroup_ne h8 (by decide), lookupStr_updGroup_ne h7 (by decide),
      lookupStr_updGroup_ne h6 (by decide), lookupStr_updGroup_ne h5 (by decide),
      lookupStr_setWholesaleIf_ne (by decide), lookupStr_setScalarIf_ne (by decide),
      lookupStr_setScalarIf_ne (by decide), lookupStr_setScalarIf_ne (by decide)] at hm
    refine ⟨m, hm, ?_⟩
    rw [lookupStr_updGroup_ne hfin (by decide), lookupStr_setExtAudioModeIf_ne (by decide)]
    exact hm2
  · intro he
    rw [he, updGroup_empty, Option.some.injEq] at hfin
    rw [← hfin, lookupStr_setExtAudioModeIf_ne (by decide),
      lookupStr_updGroup_ne h14 (by decide), lookupStr_updGroup_ne h13 (by decide),
      lookupStr_setWholesaleIf_ne (by decide), lookupStr_updGroup_ne h11 (by decide),
      lookupStr_updGroup_ne h10 (by decide), lookupStr_updGroup_ne h9 (by decide),
      lookupStr_updGroup_ne h8 (by decide), lookupStr_updGroup_ne h7 (by decide),
      lookupStr_updGroup_ne h6 (by decide), lookupStr_updGroup_ne h5 (by decide),
      lookupStr_setWholesaleIf_ne (by decide), lookupStr_setScalarIf_ne (by decide),
      lookupStr_setScalarIf_ne (by decide), lookupStr_setScalarIf_ne (by decide)]
  · intro hne
    obtain ⟨m, hm, hm2⟩ := updGroup_self hfin hne
    rw [lookupStr_setExtAudioModeIf_ne (by decide),
      lookupStr_updGroup_ne h14 (by decide), lookupStr_updGroup_ne h13 (by decide),
      lookupStr_setWholesaleIf_ne (by decide), lookupStr_updGroup_ne h11 (by decide),
      lookupStr_updGroup_ne h10 (by decide), lookupStr_updGroup_ne h9 (by decide),
      lookupStr_updGroup_ne h8 (by decide), lookupStr_updGroup_ne h7 (by decide),
      lookupStr_updGroup_ne h6 (by decide), lookupStr_updGroup_ne h5 (by decide),
      lookupStr_setWholesaleIf_ne (by decide), lookupStr_setScalarIf_ne (by decide),
      lookupStr_setScalarIf_ne (by decide), lookupStr_setScalarIf_ne (by decide)] at hm
    exact ⟨m, hm, hm2⟩


/-! ### Claim C5: partial-poll resilience -/

/-- C5: for every consolidated-status merge into the snapshot (a completed
poll `async_update_data (.statusOk st)`): the availability flag is true, the
published snapshot is the reconciled cache, a field group that is absent or
empty in the parsed status keeps its previous values (shown for every
member), groups present in the status are updated to the new values (shown
for `routing`, wholesale, and per-port for `output_hdcp`, whose ports absent
from the new dict also keep their previous values); in particular a failed
HDCP sub-query with a successful routing sub-query yields the previous HDCP
values and the new routing values with `available = true`. -/
theorem c5_partial_poll_resilience (s : CoordState) (st : FullStatus)
    (s2 : CoordState) (hupd : async_update_data s (.statusOk st) = some s2) :
    s2.available = true ∧
    s2.published = s2.last_known_data ∧
    update_data_from_status s.last_known_data st = some s2.last_known_data ∧
    (st.output_hdcp = [] →
      lookupStr s2.published "output_hdcp" = lookupStr s.last_known_data "output_hdcp") ∧
    (st.routing ≠ [] → lookupStr s2.published "routing" = some (.table st.routing)) ∧
    (st.routing = [] →
      lookupStr s2.published "routing" = lookupStr s.last_known_data "routing") ∧
    (∀ i p m, st.output_hdcp ≠ [] → (st.output_hdcp.map Prod.fst).Nodup →
      lookupStr s.last_known_data "output_hdcp" = some (.table m) →
      lookupNat st.output_hdcp i = some p →
      reportSub s2.published "output_hdcp" i = some p) ∧
    (∀ i m, st.output_hdcp ≠ [] → (st.output_hdcp.map Prod.fst).Nodup →
      lookupStr s.last_known_data "output_hdcp" = some (.table m) →
      lookupNat st.output_hdcp i = none →
      reportSub s2.published "output_hdcp" i = lookupNat m i) ∧
    (st.power = none →
      lookupStr s2.published "power" = lookupStr s.last_known_data "power") ∧
    (st.beep = none →
      lookupStr s2.published "beep" = lookupStr s.last_known_data "beep") ∧
    (st.lock = none →
      lookupStr s2.published "lock" = lookupStr s.last_known_data "lock") ∧
    (st.ext_audio_mode = none →
      lookupStr s2.published "ext_audio_mode" = lookupStr s.last_known_data "ext_audio_mode") ∧
    (st.output_audio_mute = [] →
      lookupStr s2.published "output_audio_mute" =
        lookupStr s.last_known_data "output_audio_mute") ∧
    (st.input_status = [] →
      lookupStr s2.published "input_status" = lookupStr s.last_known_data "input_status") ∧
    (st.output_status = [] →
      lookupStr s2.published "output_status" = lookupStr s.last_known_data "output_status") ∧
    (st.output_stream = [] →
      lookupStr s2.published "output_stream" = lookupStr s.last_known_data "output_stream") ∧
    (st.output_scaler = [] →
      lookupStr s2.published "output_scaler" = lookupStr s.last_known_data "output_scaler") ∧
    (st.output_hdr = [] →
      lookupStr s2.published "output_hdr" = lookupStr s.last_known_data "output_hdr") ∧
    (st.output_arc = [] →
      lookupStr s2.published "output_arc" = lookupStr s.last_known_data "output_arc") ∧
    (st.input_edid = [] →
      lookupStr s2.published "input_edid" = lookupStr s.last_known_data "input_edid") ∧
    (st.output_ext_audio = [] →
      lookupStr s2.published "output_ext_audio" =
        lookupStr s.last_known_data "output_ext_audio") ∧
    (st.output_ext_audio_source = [] →
      lookupStr s2.published "output_ext_audio_source" =
        lookupStr s.last_known_data "output_ext_audio_source") := by
  rw [async_update_data] at hupd
  obtain ⟨data, hdata, hs2⟩ := Option.map_eq_some'.mp hupd
  have hupdd : update_data_from_status s.last_known_data st = some data := hdata
  have hav : s2.available = true := by rw [← hs2]
  have hpub : s2.published = data := by rw [← hs2]
  have hlk : s2.last_known_data = data := by rw [← hs2]
  obtain ⟨Hp, Hb, Hl, Hr, Hm, He, Hi1, Hi2, Ho1, Ho2, Hh1, Hh2, Hs1, Hs2x, Hc1, Hc2,
    Hd1, Hd2, Ha1, Ha2, He1, He2, Hx1, Hx2, Hz1, Hz2⟩ :=
    update_data_lookup s.last_known_data st data hupdd
  refine ⟨hav, by rw [hpub, hlk], by rw [hlk]; exact hupdd, ?_, ?_, ?_, ?_, ?_, ?_, ?_,
    ?_, ?_, ?_, ?_, ?_, ?_, ?_, ?_, ?_, ?_, ?_, ?_⟩
  · intro he
    rw [hpub]
    exact Hh1 he
  · intro hne
    rw [hpub, Hr, if_neg hne]
  · intro he
    rw [hpub, Hr, if_pos he]
  · intro i p m hne hnd hm hlook
    obtain ⟨m2, hm2, hm3⟩ := Hh2 hne
    rw [hm] at hm2
    have hmm : m = m2 := DVal.table.inj (Option.some.inj hm2)
    subst hmm
    rw [hpub]
    simp only [reportSub, hm3]
    rw [lookupNat_updateNat _ _ _ hnd, hlook]
    rfl
  · intro i m hne hnd hm hlook
    obtain ⟨m2, hm2, hm3⟩ := Hh2 hne
    rw [hm] at hm2
    have hmm : m = m2 := DVal.table.inj (Option.some.inj hm2)
    subst hmm
    rw [hpub]
    simp only [reportSub, hm3]
    rw [lookupNat_updateNat _ _ _ hnd, hlook]
    rfl
  · intro hp
    rw [hpub]
    rw [hp] at Hp
    exact Hp
  · intro hp
    rw [hpub]
    rw [hp] at Hb
    exact Hb
  · intro hp
    rw [hpub]
    rw [hp] at Hl
    exact Hl
  · intro hp
    rw [hpub]
    rw [hp] at He
    exact He
  · intro hp
    rw [hpub, Hm, if_pos hp]
  · intro hp
    rw [hpub]
    exact Hi1 hp
  · intro hp
    rw [hpub]
    exact Ho1 hp
  · intro hp
    rw [hpub]
    exact Hs1 hp
  · intro hp
    rw [hpub]
    exact Hc1 hp
  · intro hp
    rw [hpub]
    exact Hd1 hp
  · intro hp
    rw [hpub]
    exact Ha1 hp
  · intro hp
    rw [hpub]
    exact He1 hp
  · intro hp
    rw [hpub]
    exact Hx1 hp
  · intro hp
    rw [hpub]
    exact Hz1 hp

/-- C5 witness: a poll whose status carries only a routing for output 2 (HDCP
and every other sub-query failed/empty) publishes the previous HDCP values,
the new routing values, and `available = true`. -/
theorem c5_partial_poll_resilience_witness :
    async_update_data ⟨defaultData, [], false, defaultData⟩
        (.statusOk ⟨none, none, none, [(2, Prim.pn 7)],
          [], [], [], [], [], [], [], [], [], [], none, []⟩) =
      some ⟨setStr defaultData "routing" (DVal.table [(2, Prim.pn 7)]), [], true,
            setStr defaultData "routing" (DVal.table [(2, Prim.pn 7)])⟩ ∧
    lookupStr (setStr defaultData "routing" (DVal.table [(2, Prim.pn 7)]))
        "output_hdcp" = lookupStr defaultData "output_hdcp" ∧
    lookupStr (setStr defaultData "routing" (DVal.table [(2, Prim.pn 7)]))
        "routing" = some (DVal.table [(2, Prim.pn 7)]) := by
  have h := c5_partial_poll_resilience
    ⟨defaultData, [], false, defaultData⟩
    ⟨none, none, none, [(2, Prim.pn 7)], [], [], [], [], [], [], [], [], [], [], none, []⟩
    ⟨setStr defaultData "routing" (DVal.table [(2, Prim.pn 7)]), [], true,
     setStr defaultData "routing" (DVal.table [(2, Prim.pn 7)])⟩
    rfl
  exact ⟨rfl, h.2.2.2.1 rfl, h.2.2.2.2.1 (by decide)⟩

/-! ### Claim C7: failed write reverts exactly its optimistic entry -/

theorem lookupStr_eraseStr (d : DataDict) (k : String) (k' : String)
    (hnd : (d.map Prod.fst).Nodup) :
    lookupStr (eraseStr d k) k' = if k' = k then none else lookupStr d k' := by
  induction d with
  | nil => by_cases h : k' = k <;> simp [eraseStr, lookupStr, h]
  | cons kv rest ih =>
    obtain ⟨a, w⟩ := kv
    simp only [List.map_cons, List.nodup_cons] at hnd
    by_cases hak : a = k
    · subst hak
      by_cases h : k' = a
      · subst h
        simp [eraseStr, lookupStr_none_of_not_mem rest k' hnd.1]
      · have h1 : ¬ (a = k') := fun hc => h hc.symm
        simp [eraseStr, lookupStr, h, h1]
    · by_cases h : k' = a
      · subst h
        have h1 : ¬ (k' = k) := fun hc => hak (hc ▸ rfl)
        simp [eraseStr, lookupStr, hak, h1]
      · have h1 : ¬ (a = k') := fun hc => h hc.symm
        simp [eraseStr, lookupStr, hak, h, h1, ih hnd.2]

theorem lookupNat_eraseNat (m : List (Nat × Prim)) (i : Nat) (j : Nat)
    (hnd : (m.map Prod.fst).Nodup) :
    lookupNat (eraseNat m i) j = if j = i then none else lookupNat m j := by
  induction m with
  | nil => by_cases h : j = i <;> simp [eraseNat, lookupNat, h]
  | cons kv rest ih =>
    obtain ⟨a, w⟩ := kv
    simp only [List.map_cons, List.nodup_cons] at hnd
    by_cases hai : a = i
    · subst hai
      by_cases h : j = a
      · subst h
        simp [eraseNat, lookupNat_none_of_not_mem rest j hnd.1]
      · have h1 : ¬ (a = j) := fun hc => h hc.symm
        simp [eraseNat, lookupNat, h, h1]
    · by_cases h : j = a
      · subst h
        have h1 : ¬ (j = i) := fun hc => hai (hc ▸ rfl)
        simp [eraseNat, lookupNat, hai, h1]
      · have h1 : ¬ (a = j) := fun hc => h hc.symm
        simp [eraseNat, lookupNat, hai, h, h1, ih hnd.2]

/-- Effect of the `set_optimistic_state` + `clear_optimistic_state` pair on
the overlay, for a port table `m1` holding the pending value at `output`. -/
theorem clear_after_set_core (ov : DataDict) (output : Nat) (v : Prim)
    (m1 : List (Nat × Prim)) (hnd : (ov.map Prod.fst).Nodup)
    (hndm1 : (m1.map Prod.fst).Nodup)
    (hm1out : lookupNat m1 output = some v) :
    ∃ ov2,
      clear_optimistic_state (setStr ov "routing" (.table m1)) "routing"
        (some output) = some ov2 ∧
      reportSub ov2 "routing" output = none ∧
      (∀ k, k ≠ "routing" → lookupStr ov2 k = lookupStr ov k) ∧
      (∀ i, i ≠ output → reportSub ov2 "routing" i = lookupNat m1 i) := by
  have hlook1 : lookupStr (setStr ov "routing" (.table m1)) "routing" =
      some (.table m1) := by
    rw [lookupStr_setStr]
    simp
  have hnd1 : ((setStr ov "routing" (.table m1)).map Prod.fst).Nodup :=
    nodupKeys_setStr _ _ _ hnd
  by_cases hemp : eraseNat m1 output = []
  · refine ⟨eraseStr (setStr ov "routing" (.table m1)) "routing", ?_, ?_, ?_, ?_⟩
    · simp [clear_optimistic_state, hlook1, hm1out, hemp]
    · simp [reportSub, lookupStr_eraseStr _ _ _ hnd1]
    · intro k hk
      rw [lookupStr_eraseStr _ _ _ hnd1, if_neg hk, lookupStr_setStr, if_neg hk]
    · intro i hi
      have h2 : lookupNat m1 i = none := by
        have h3 := lookupNat_eraseNat m1 output i hndm1
        rw [hemp, if_neg hi] at h3
        exact h3.symm
      simp [reportSub, lookupStr_eraseStr _ _ _ hnd1, h2]
  · refine ⟨setStr (setStr ov "routing" (.table m1)) "routing"
      (.table (eraseNat m1 output)), ?_, ?_, ?_, ?_⟩
    · simp [clear_optimistic_state, hlook1, hm1out, hemp]
    · simp [reportSub, lookupStr_setStr, lookupNat_eraseNat _ _ _ hndm1]
    · intro k hk
      rw [lookupStr_setStr, if_neg hk, lookupStr_setStr, if_neg hk]
    · intro i hi
      simp [reportSub, lookupStr_setStr, lookupNat_eraseNat _ _ _ hndm1, hi]

/-- C7: a failed routing write (`async_set_output_source` whose protocol
write raises) completes by removing exactly the pending optimistic entry
`("routing", output)` (required for a well-formed overlay whose `routing`
entry, if present, is a port table — the only shape the coordinator ever
creates): the error is propagated, no confirming refresh is scheduled, the
authoritative cache and availability are untouched, other overlay keys and
other ports of the routing overlay are unchanged; a successful write instead
propagates no error and schedules the confirming refresh. -/
theorem c7_failed_write_reverts_optimistic_entry (s : CoordState) (output : Nat)
    (source : Int) (hwf : DictWF s.optimistic_state)
    (hns : ∀ p, lookupStr s.optimistic_state "routing" ≠ some (.scalar p)) :
    (∃ sErr, async_set_output_source s output source false = some (sErr, true, false)) ∧
    (∀ sErr raised refreshed,
      async_set_output_source s output source false = some (sErr, raised, refreshed) →
      raised = true ∧ refreshed = false ∧
      sErr.last_known_data = s.last_known_data ∧
      sErr.available = s.available ∧
      reportSub sErr.optimistic_state "routing" output = none ∧
      (∀ k, k ≠ "routing" →
        lookupStr sErr.optimistic_state k = lookupStr s.optimistic_state k) ∧
      (∀ i, i ≠ output → reportSub sErr.optimistic_state "routing" i =
        reportSub s.optimistic_state "routing" i)) ∧
    (∃ sOk, async_set_output_source s output source true = some (sOk, false, true)) := by
  have main : ∃ m1,
      set_optimistic_state s.optimistic_state "routing" (.pn source) (some output) =
        some (setStr s.optimistic_state "routing" (.table m1)) ∧
      (m1.map Prod.fst).Nodup ∧
      lookupNat m1 output = some (.pn source) ∧
      (∀ i, i ≠ output → lookupNat m1 i = reportSub s.optimistic_state "routing" i) := by
    cases hov : lookupStr s.optimistic_state "routing" with
    | none =>
      refine ⟨[(output, .pn source)], by simp [set_optimistic_state, hov], by simp,
        by simp [lookupNat], ?_⟩
      intro i hi
      have h1 : ¬ (output = i) := fun hc => hi hc.symm
      simp [lookupNat, h1, reportSub, hov]
    | some w =>
      cases w with
      | scalar p => exact absurd hov (hns p)
      | table m =>
        have hmnd : (m.map Prod.fst).Nodup :=
          hwf.2 (("routing", DVal.table m)) (lookupStr_mem _ _ _ hov)
        refine ⟨setNat m output (.pn source), by simp [set_optimistic_state, hov],
          nodupKeys_setNat _ _ _ hmnd, by simp [lookupNat_setNat], ?_⟩
        intro i hi
        rw [lookupNat_setNat, if_neg hi]
        simp [reportSub, hov]
  obtain ⟨m1, hset, hndm1, hm1out, hother⟩ := main
  obtain ⟨ov2, hclear, hr0, hrk, hri⟩ :=
    clear_after_set_core s.optimistic_state output (.pn source) m1 hwf.1 hndm1 hm1out
  have hcoord : coordSetOptimistic s "routing" (.pn source) (some output) =
      some { s with
        optimistic_state := setStr s.optimistic_state "routing" (.table m1)
        published :=
          merge_data s.last_known_data
            (setStr s.optimistic_state "routing" (.table m1)) } := by
    rw [coordSetOptimistic, hset]
    rfl
  have hfail : async_set_output_source s output source false =
      some ({ s with
        optimistic_state := ov2
        published :=
          merge_data s.last_known_data
            (setStr s.optimistic_state "routing" (.table m1)) }, true, false) := by
    rw [async_set_output_source, hcoord]
    simp only [Option.some_bind, Bool.false_eq_true, if_false]
    rw [hclear]
    rfl
  refine ⟨⟨_, hfail⟩, ?_, ?_⟩
  · intro sErr raised refreshed heq
    rw [hfail, Option.some.injEq] at heq
    injection heq with h1 h23
    injection h23 with h2 h3
    subst h1
    subst h2
    subst h3
    exact ⟨rfl, rfl, rfl, rfl, hr0, hrk, fun i hi => (hri i hi).trans (hother i hi)⟩
  · exact ⟨_, by rw [async_set_output_source, hcoord]; rfl⟩

/-- Witness for C7: in a concrete coordinator state whose overlay holds pending
routing guesses for outputs 1 and 2, a failed write for output 2 yields the
raised-no-refresh outcome, and a successful write yields the refresh outcome. -/
theorem c7_failed_write_reverts_optimistic_entry_witness :
    (∃ sErr, async_set_output_source
        ⟨defaultData, [("routing", DVal.table [(1, Prim.pn 9), (2, Prim.pn 3)])],
          true, defaultData⟩ 2 5 false = some (sErr, true, false)) ∧
    (∃ sOk, async_set_output_source
        ⟨defaultData, [("routing", DVal.table [(1, Prim.pn 9), (2, Prim.pn 3)])],
          true, defaultData⟩ 2 5 true = some (sOk, false, true)) := by
  have h := c7_failed_write_reverts_optimistic_entry
    ⟨defaultData, [("routing", DVal.table [(1, Prim.pn 9), (2, Prim.pn 3)])],
      true, defaultData⟩ 2 5
    (by
      refine ⟨by decide, ?_⟩
      intro kv hkv
      simp only [List.mem_singleton] at hkv
      subst hkv
      decide)
    (by intro p hp; simp [lookupStr] at hp)
  exact ⟨h.1, h.2.2⟩


/-! ### Claim C2: total communication failure (code bug) -/

/-- C2 (code bug): on a poll sweep whose `get_full_status` raises
`OreiMatrixConnectionError` (device totally unreachable), the coordinator
DOES republish the last good snapshot unchanged — but, contrary to the claim,
`available` remains/becomes `true`: `_fetch_all_data` catches every
`OreiMatrixError` around `get_full_status`, so the
`except OreiMatrixConnectionError` branch of `_async_update_data` that sets
`_available = False` is unreachable and the success path runs (also clearing
the optimistic overlay). -/
theorem c2_total_failure_republishes_but_stays_available (s : CoordState) :
    async_update_data s .oreiError =
      some
        { last_known_data := s.last_known_data
          optimistic_state := []
          available := true
          published := s.last_known_data } := rfl

/-! ### Claim C1: optimistic overlay semantics -/

/-- C1: if the overlay is a well-formed dict and `set_optimistic_state`
succeeds (it raises `TypeError` only when a port-indexed write hits a scalar
overlay entry, which the coordinator never does), then: the published merged
snapshot immediately reports the optimistic value `v` for the written
attribute; the authoritative cache is untouched; the next poll is entirely
independent of the optimistic write; and any completed poll leaves the
overlay empty and publishes exactly the reconciled authoritative data, so
the device value wins regardless of `v`. -/
theorem c1_optimistic_overlay (s : CoordState) (key : String) (v : Prim)
    (sub : Option Nat) (s' : CoordState)
    (hwf : DictWF s.optimistic_state)
    (hset : coordSetOptimistic s key v sub = some s') :
    reportAt s'.published key sub = some v ∧
    s'.last_known_data = s.last_known_data ∧
    (∀ o, async_update_data s' o = async_update_data s o) ∧
    (∀ o s'', async_update_data s' o = some s'' →
      s''.optimistic_state = [] ∧ s''.published = s''.last_known_data ∧
      fetch_all_data s.last_known_data o = some s''.last_known_data) := by
  obtain ⟨ov', hov', hs'⟩ := Option.map_eq_some'.mp hset
  have hlk : s'.last_known_data = s.last_known_data := by rw [← hs']
  have hpub : s'.published = merge_data s.last_known_data ov' := by rw [← hs']
  refine ⟨?_, hlk, ?_, ?_⟩
  · rw [hpub]
    cases sub with
    | none =>
      simp only [set_optimistic_state, Option.some.injEq] at hov'
      subst hov'
      have hnd : (((setStr s.optimistic_state key (.scalar v)).map Prod.fst)).Nodup :=
        nodupKeys_setStr _ _ _ hwf.1
      rw [reportAt, reportScalar, lookup_merge _ _ _ hnd, lookupStr_setStr]
      simp
    | some i =>
      cases hov : lookupStr s.optimistic_state key with
      | none =>
        rw [set_optimistic_state] at hov'
        rw [hov] at hov'
        simp only [Option.some.injEq] at hov'
        subst hov'
        have hnd := nodupKeys_setStr s.optimistic_state key (.table [(i, v)]) hwf.1
        rw [reportAt, reportSub, lookup_merge _ _ _ hnd, lookupStr_setStr]
        simp only [if_pos rfl]
        cases hlkk : lookupStr s.last_known_data key with
        | none => simp [lookupNat]
        | some w =>
          cases w with
          | scalar p => simp [lookupNat]
          | table mt =>
            show lookupNat (updateNat mt [(i, v)]) i = some v
            rw [lookupNat_updateNat _ _ _ (by simp)]
            simp [lookupNat, Option.or]
      | some w =>
        cases w with
        | scalar p =>
          rw [set_optimistic_state] at hov'
          rw [hov] at hov'
          exact Option.noConfusion hov'
        | table m =>
          rw [set_optimistic_state] at hov'
          rw [hov] at hov'
          simp only [Option.some.injEq] at hov'
          subst hov'
          have hmnd : (m.map Prod.fst).Nodup :=
            hwf.2 (key, .table m) (lookupStr_mem _ _ _ hov)
          have hnd := nodupKeys_setStr s.optimistic_state key (.table (setNat m i v)) hwf.1
          rw [reportAt, reportSub, lookup_merge _ _ _ hnd, lookupStr_setStr]
          simp only [if_pos rfl]
          cases hlkk : lookupStr s.last_known_data key with
          | none => simp [lookupNat_setNat]
          | some w2 =>
            cases w2 with
            | scalar p => simp [lookupNat_setNat]
            | table mt =>
              show lookupNat (updateNat mt (setNat m i v)) i = some v
              rw [lookupNat_updateNat _ _ _ (nodupKeys_setNat _ _ _ hmnd)]
              simp [lookupNat_setNat, Option.or]
  · intro o
    rw [async_update_data, async_update_data, hlk]
  · intro o s'' hupd
    rw [async_update_data, hlk] at hupd
    obtain ⟨data, hdata, hs''⟩ := Option.map_eq_some'.mp hupd
    refine ⟨by rw [← hs''], by rw [← hs''], ?_⟩
    rw [← hs'']
    exact hdata

/-- C1 witness: writing the optimistic routing value 5 for output 2, on a
state whose cache holds the defaults and whose overlay already holds an
optimistic beep, succeeds and makes the published merged snapshot report 5
for output 2 while the cache is untouched. -/
theorem c1_optimistic_overlay_witness :
    coordSetOptimistic
        ⟨defaultData, [("beep", DVal.scalar (.pb true))], true, defaultData⟩
        "routing" (.pn 5) (some 2) =
      some
        ⟨defaultData,
         [("beep", DVal.scalar (.pb true)), ("routing", DVal.table [(2, .pn 5)])],
         true,
         merge_data defaultData
           [("beep", DVal.scalar (.pb true)), ("routing", DVal.table [(2, .pn 5)])]⟩ ∧
    reportAt
      (merge_data defaultData
        [("beep", DVal.scalar (.pb true)), ("routing", DVal.table [(2, .pn 5)])])
      "routing" (some 2) = some (.pn 5) := by
  constructor
  · rfl
  · exact (c1_optimistic_overlay
      ⟨defaultData, [("beep", DVal.scalar (.pb true))], true, defaultData⟩
      "routing" (.pn 5) (some 2)
      ⟨defaultData,
       [("beep", DVal.scalar (.pb true)), ("routing", DVal.table [(2, .pn 5)])],
       true,
       merge_data defaultData
         [("beep", DVal.scalar (.pb true)), ("routing", DVal.table [(2, .pn 5)])]⟩
      (by
        refine ⟨by decide, ?_⟩
        intro kv hkv
        simp only [List.mem_singleton] at hkv
        subst hkv
        trivial)
      rfl).1

/-! ### Helper lemmas for the completion detector -/

theorem splitNL_ne_nil (s : List Char) : splitNL s ≠ [] := by
  cases s with
  | nil => simp [splitNL]
  | cons c cs =>
    by_cases hc : c = '\n'
    · simp [splitNL, hc]
    · simp only [splitNL, if_neg hc]
      cases splitNL cs <;> simp

theorem getLastD_congr {α : Type} (L : List α) (h : L ≠ []) (d₁ d₂ : α) :
    L.getLastD d₁ = L.getLastD d₂ := by
  rw [List.getLastD_eq_getLast?, List.getLastD_eq_getLast?]
  cases hL : L.getLast? with
  | none => exact absurd (List.getLast?_eq_none_iff.mp hL) h
  | some a => rfl

theorem splitNL_head (s : List Char) :
    ∀ l ls, splitNL s = l :: ls → l = s.takeWhile (fun c => c != '\n') := by
  induction s with
  | nil =>
    intro l ls h
    simp only [splitNL] at h
    rw [List.cons.injEq] at h
    simp [← h.1]
  | cons c cs ih =>
    intro l ls h
    by_cases hc : c = '\n'
    · subst hc
      simp only [splitNL, if_true] at h
      rw [List.cons.injEq] at h
      simp [← h.1, List.takeWhile_cons]
    · simp only [splitNL, if_neg hc] at h
      cases hcs : splitNL cs with
      | nil => exact absurd hcs (splitNL_ne_nil cs)
      | cons l0 ls0 =>
        rw [hcs] at h
        rw [List.cons.injEq] at h
        rw [← h.1, List.takeWhile_cons]
        simp only [bne_iff_ne, ne_eq, hc, not_false_eq_true, if_pos]
        rw [ih l0 ls0 hcs]

theorem splitNL_snoc (z : List Char) (c : Char) :
    splitNL (z ++ [c]) =
      if c = '\n' then splitNL z ++ [[]]
      else (splitNL z).dropLast ++ [(splitNL z).getLastD [] ++ [c]] := by
  induction z with
  | nil =>
    by_cases hc : c = '\n'
    · simp [splitNL, hc]
    · simp [splitNL, hc]
  | cons a z' ih =>
    by_cases ha : a = '\n'
    · subst ha
      rw [List.cons_append]
      simp only [splitNL, if_true]
      rw [ih]
      by_cases hc : c = '\n'
      · simp [hc]
      · rw [if_neg hc, if_neg hc]
        cases hz : splitNL z' with
        | nil => exact absurd hz (splitNL_ne_nil z')
        | cons p ps =>
          simp [List.dropLast_cons₂, List.getLastD_cons]
    · rw [List.cons_append]
      simp only [splitNL, if_neg ha]
      rw [ih]
      cases hz : splitNL z' with
      | nil => exact absurd hz (splitNL_ne_nil z')
      | cons p ps =>
        by_cases hc : c = '\n'
        · subst hc
          simp only [if_true, List.cons_append]
        · rw [if_neg hc, if_neg hc]
          cases ps with
          | nil => simp
          | cons q qs =>
            simp only [List.dropLast_cons₂, List.getLastD_cons, List.cons_append]

theorem splitNL_reverse (s : List Char) :
    splitNL s.reverse = ((splitNL s).map List.reverse).reverse := by
  induction s with
  | nil => simp [splitNL]
  | cons c t ih =>
    rw [List.reverse_cons, splitNL_snoc]
    by_cases hc : c = '\n'
    · subst hc
      rw [if_pos rfl, ih]
      simp [splitNL]
    · rw [if_neg hc]
      simp only [splitNL, if_neg hc]
      cases ht : splitNL t with
      | nil => exact absurd ht (splitNL_ne_nil t)
      | cons l ls =>
        rw [ht] at ih
        rw [ih]
        simp only [List.map_cons, List.reverse_cons]
        rw [List.dropLast_concat, List.getLastD_eq_getLast?, List.getLast?_concat]
        simp

theorem head_filter_eq_find {α : Type} (p : α → Bool) (L : List α) :
    (L.filter p).head? = L.find? p := by
  induction L with
  | nil => simp
  | cons a l ih =>
    by_cases hp : p a = true
    · rw [List.filter_cons_of_pos hp, List.find?_cons_of_pos l hp]
      simp
    · rw [List.filter_cons_of_neg (by simpa using hp), List.find?_cons_of_neg l hp]
      exact ih

theorem stripL_reverse (x : List Char) : stripL x.reverse = (stripR x).reverse := by
  rw [stripR, List.rdropWhile, List.reverse_reverse, stripL]

theorem stripR_reverse (x : List Char) : stripR x.reverse = (stripL x).reverse := by
  rw [stripR, List.rdropWhile, List.reverse_reverse, stripL]

theorem dropWhile_head_not {p : Char → Bool} (l : List Char) (a : Char) (w : List Char)
    (h : l.dropWhile p = a :: w) : p a = false := by
  induction l with
  | nil => simp at h
  | cons b t ih =>
    by_cases hb : p b = true
    · rw [List.dropWhile_cons_of_pos hb] at h
      exact ih h
    · rw [List.dropWhile_cons_of_neg hb] at h
      rw [List.cons.injEq] at h
      rw [← h.1]
      simpa using hb

theorem stripR_append (y z : List Char) (hz : stripR z ≠ []) :
    stripR (y ++ z) = y ++ stripR z := by
  have hne : z.reverse.dropWhile isSpc ≠ [] := by
    intro h0
    apply hz
    show (z.reverse.dropWhile isSpc).reverse = []
    rw [h0, List.reverse_nil]
  show ((y ++ z).reverse.dropWhile isSpc).reverse = y ++ (z.reverse.dropWhile isSpc).reverse
  rw [List.reverse_append, List.dropWhile_append, if_neg (by simpa using hne),
    List.reverse_append, List.reverse_reverse]

theorem stripR_append_spc (y z : List Char) (hz : z.all isSpc = true) :
    stripR (y ++ z) = stripR y := by
  have h0 : z.reverse.dropWhile isSpc = [] :=
    List.dropWhile_eq_nil_iff.mpr
      (fun a ha => List.all_eq_true.mp hz a (List.mem_reverse.mp ha))
  show ((y ++ z).reverse.dropWhile isSpc).reverse = (y.reverse.dropWhile isSpc).reverse
  rw [List.reverse_append, List.dropWhile_append, if_pos (by simp [h0])]

theorem stripL_stripR_comm (x : List Char) : stripL (stripR x) = stripR (stripL x) := by
  cases hu : stripL x with
  | nil =>
    have hall : ∀ a ∈ x, isSpc a = true := List.dropWhile_eq_nil_iff.mp hu
    have h1 : stripR x = [] := List.rdropWhile_eq_nil_iff.mpr hall
    rw [h1]
    rfl
  | cons a w =>
    have ha : isSpc a = false := dropWhile_head_not x a w hu
    have hxdec : x.takeWhile isSpc ++ (a :: w) = x := by
      conv_rhs => rw [← List.takeWhile_append_dropWhile (p := isSpc) (l := x)]
      rw [show x.dropWhile isSpc = a :: w from hu]
    have hsrne : stripR (a :: w) ≠ [] := by
      intro h0
      have hmem := List.rdropWhile_eq_nil_iff.mp h0 a (by simp)
      rw [ha] at hmem
      simp at hmem
    have hsr : stripR x = x.takeWhile isSpc ++ stripR (a :: w) := by
      conv_lhs => rw [← hxdec]
      exact stripR_append _ _ hsrne
    rw [hsr]
    obtain ⟨b, v, hbv⟩ : ∃ b v, stripR (a :: w) = b :: v := by
      cases hsw : stripR (a :: w) with
      | nil => exact absurd hsw hsrne
      | cons b v => exact ⟨b, v, rfl⟩
    have hb : b = a := by
      have hpfx := List.rdropWhile_prefix isSpc (a :: w)
      rw [show List.rdropWhile isSpc (a :: w) = stripR (a :: w) from rfl, hbv] at hpfx
      exact (List.cons_prefix_cons.mp hpfx).1
    have hemp : (List.dropWhile isSpc (x.takeWhile isSpc)).isEmpty = true := by
      have h0 : List.dropWhile isSpc (x.takeWhile isSpc) = [] :=
        List.dropWhile_eq_nil_iff.mpr (fun y hy => List.mem_takeWhile_imp hy)
      simp [h0]
    show List.dropWhile isSpc (x.takeWhile isSpc ++ stripR (a :: w)) = stripR (a :: w)
    rw [List.dropWhile_append, if_pos hemp, hbv,
      List.dropWhile_cons_of_neg (by simp [hb, ha])]

theorem pystrip_reverse (x : List Char) : pystrip x.reverse = (pystrip x).reverse := by
  rw [pystrip, stripL_reverse, stripR_reverse, stripL_stripR_comm]
  rfl

theorem pystrip_cons_spc (c : Char) (x : List Char) (hc : isSpc c = true) :
    pystrip (c :: x) = pystrip x := by
  show stripR (List.dropWhile isSpc (c :: x)) = stripR (List.dropWhile isSpc x)
  rw [List.dropWhile_cons_of_pos hc]

theorem pystrip_append_spc (y z : List Char) (hz : z.all isSpc = true) :
    pystrip (y ++ z) = pystrip y := by
  show stripR (List.dropWhile isSpc (y ++ z)) = stripR (List.dropWhile isSpc y)
  rw [List.dropWhile_append]
  by_cases hy : (List.dropWhile isSpc y).isEmpty = true
  · rw [if_pos hy]
    have h1 : List.dropWhile isSpc z = [] :=
      List.dropWhile_eq_nil_iff.mpr (fun a ha => List.all_eq_true.mp hz a ha)
    have h2 : List.dropWhile isSpc y = [] := by simpa using hy
    rw [h1, h2]
  · rw [if_neg hy]
    exact stripR_append_spc _ _ hz

theorem splitNL_rev_map (s : List Char) :
    (splitNL s).reverse = (splitNL s.reverse).map List.reverse := by
  rw [splitNL_reverse, List.map_reverse, List.map_map]
  congr 1
  rw [show (List.reverse ∘ List.reverse : List Char → List Char) = id from
    funext (fun l => List.reverse_reverse l), List.map_id]

theorem splitNL_getLast (s : List Char) :
    (splitNL s).getLast? =
      some ((s.reverse.takeWhile (fun c => c != '\n')).reverse) := by
  rw [List.getLast?_eq_head?_reverse, splitNL_rev_map, List.head?_map]
  cases hsr : splitNL s.reverse with
  | nil => exact absurd hsr (splitNL_ne_nil _)
  | cons l ls =>
    have := splitNL_head s.reverse l ls hsr
    simp [this]

theorem find_nonblank_splitNL (R : List Char) :
    pystrip (((splitNL R).find? (fun l => !(l.all isSpc))).getD []) =
      pystrip ((R.dropWhile isSpc).takeWhile (fun c => c != '\n')) := by
  induction R with
  | nil => simp [splitNL]
  | cons c R' ih =>
    by_cases hnl : c = '\n'
    · subst hnl
      simp only [splitNL, if_true]
      rw [List.find?_cons_of_neg _ (by simp)]
      rw [List.dropWhile_cons_of_pos (by decide)]
      exact ih
    · by_cases hsp : isSpc c = true
      · rw [List.dropWhile_cons_of_pos hsp]
        simp only [splitNL, if_neg hnl]
        cases hR : splitNL R' with
        | nil => exact absurd hR (splitNL_ne_nil R')
        | cons l ls =>
          rw [hR] at ih
          by_cases hbl : (l.all isSpc) = true
          · rw [List.find?_cons_of_neg _ (by simp [hbl, hsp])]
            rw [List.find?_cons_of_neg _ (by simp [hbl])] at ih
            exact ih
          · rw [List.find?_cons_of_pos _ (by simp [hbl])]
            rw [List.find?_cons_of_pos _ (by simp [hbl])] at ih
            rw [Option.getD_some] at ih ⊢
            rw [pystrip_cons_spc c l hsp]
            exact ih
      · rw [List.dropWhile_cons_of_neg hsp]
        simp only [splitNL, if_neg hnl]
        cases hR : splitNL R' with
        | nil => exact absurd hR (splitNL_ne_nil R')
        | cons l ls =>
          rw [List.find?_cons_of_pos _ (by simp [hsp])]
          have hl := splitNL_head R' l ls hR
          rw [Option.getD_some, List.takeWhile_cons, if_pos (by simp [hnl]), hl]

theorem pystrip_takeWhile_strip (R : List Char) :
    pystrip ((pystrip R).takeWhile (fun c => c != '\n')) =
      pystrip ((R.dropWhile isSpc).takeWhile (fun c => c != '\n')) := by
  have hdecomp :
      stripR (R.dropWhile isSpc) ++ List.rtakeWhile isSpc (R.dropWhile isSpc) =
        R.dropWhile isSpc := by
    rw [stripR, List.rdropWhile, List.rtakeWhile, ← List.reverse_append,
      List.takeWhile_append_dropWhile, List.reverse_reverse]
  have hws : ∀ a ∈ List.rtakeWhile isSpc (R.dropWhile isSpc), isSpc a = true := by
    intro a ha
    rw [List.rtakeWhile] at ha
    exact List.mem_takeWhile_imp (List.mem_reverse.mp ha)
  have hpy : pystrip R = stripR (R.dropWhile isSpc) := rfl
  rw [hpy]
  by_cases hall :
      ((stripR (R.dropWhile isSpc)).takeWhile (fun c => c != '\n')).length =
        (stripR (R.dropWhile isSpc)).length
  · conv_rhs => rw [← hdecomp]
    rw [List.takeWhile_append, if_pos hall]
    have hws2 :
        ((List.rtakeWhile isSpc (R.dropWhile isSpc)).takeWhile
          (fun c => c != '\n')).all isSpc = true := by
      rw [List.all_eq_true]
      intro a ha
      exact hws a ((List.takeWhile_sublist _).subset ha)
    rw [pystrip_append_spc _ _ hws2, (List.takeWhile_prefix _).eq_of_length hall]
  · conv_rhs => rw [← hdecomp]
    rw [List.takeWhile_append, if_neg hall]

theorem pystrip_nil : pystrip [] = [] := rfl

theorem key_lastline (r : List Char) :
    pystrip ((splitNL (pystrip r)).getLastD []) =
      pystrip (((splitNL r).filter (fun l => !(l.all isSpc))).getLastD []) := by
  have h1 : (splitNL (pystrip r)).getLastD [] =
      ((pystrip r).reverse.takeWhile (fun c => c != '\n')).reverse := by
    rw [List.getLastD_eq_getLast?, splitNL_getLast]
    rfl
  rw [h1]
  have h2 : (pystrip r).reverse = pystrip r.reverse := (pystrip_reverse r).symm
  rw [h2, pystrip_reverse, pystrip_takeWhile_strip r.reverse,
    ← find_nonblank_splitNL r.reverse]
  rw [List.getLastD_eq_getLast?, List.getLast?_eq_head?_reverse, ← List.filter_reverse,
    splitNL_rev_map, List.filter_map]
  have hp : ((fun l => !(l.all isSpc)) ∘ List.reverse : List Char → Bool) =
      (fun l => !(l.all isSpc)) := by
    funext l
    simp [List.all_reverse]
  rw [hp, List.head?_map, head_filter_eq_find]
  cases hf : (splitNL r.reverse).find? (fun l => !(l.all isSpc)) with
  | none => simp [pystrip_nil]
  | some l => simp [pystrip_reverse]

theorem containsSub_cons_of_ne (k0 : Char) (k' : List Char) (c : Char) (h : k0 ≠ c)
    (t : List Char) :
    containsSub (k0 :: k') (c :: t) = containsSub (k0 :: k') t := by
  show (isPfx (k0 :: k') (c :: t) || containsSub (k0 :: k') t) = containsSub (k0 :: k') t
  rw [show isPfx (k0 :: k') (c :: t) = (k0 == c && isPfx k' t) from rfl]
  have hb : (k0 == c) = false := beq_eq_false_iff_ne.mpr h
  simp [hb]

theorem containsSub_dropWhile_spc (k0 : Char) (k' : List Char) (hk0 : isSpc k0 = false)
    (h : List Char) :
    containsSub (k0 :: k') (h.dropWhile isSpc) = containsSub (k0 :: k') h := by
  induction h with
  | nil => rfl
  | cons c t ih =>
    by_cases hc : isSpc c = true
    · have hne : k0 ≠ c := by
        intro he
        rw [← he] at hc
        rw [hk0] at hc
        exact Bool.false_ne_true hc
      rw [List.dropWhile_cons_of_pos hc, ih, containsSub_cons_of_ne k0 k' c hne t]
    · rw [List.dropWhile_cons_of_neg hc]

theorem containsSub_rev (k h : List Char) :
    containsSub k h = containsSub k.reverse h.reverse := by
  rw [Bool.eq_iff_iff, containsSub_iff, containsSub_iff]
  exact Iff.symm List.reverse_infix

theorem containsSub_pystrip (k : List Char) (hne : k ≠ [])
    (hns : k.all (fun c => !isSpc c) = true) (h : List Char) :
    containsSub k (pystrip h) = containsSub k h := by
  obtain ⟨k0, k', rfl⟩ : ∃ k0 k', k = k0 :: k' := by
    cases k with
    | nil => exact absurd rfl hne
    | cons a b => exact ⟨a, b, rfl⟩
  have hk0 : isSpc k0 = false := by
    have := List.all_eq_true.mp hns k0 (by simp)
    simpa using this
  have hstepR : ∀ m : List Char,
      containsSub (k0 :: k') (stripR m) = containsSub (k0 :: k') m := by
    intro m
    rw [containsSub_rev, containsSub_rev (k0 :: k') m]
    rw [show (stripR m).reverse = m.reverse.dropWhile isSpc from by
      rw [stripR, List.rdropWhile, List.reverse_reverse]]
    obtain ⟨m0, m', hm⟩ : ∃ m0 m', (k0 :: k').reverse = m0 :: m' := by
      cases hrev : (k0 :: k').reverse with
      | nil => exact absurd hrev (by simp)
      | cons a b => exact ⟨a, b, rfl⟩
    have hm0 : isSpc m0 = false := by
      have hmem : m0 ∈ (k0 :: k').reverse := by
        rw [hm]
        simp
      have := List.all_eq_true.mp hns m0 (List.mem_reverse.mp hmem)
      simpa using this
    rw [hm]
    exact containsSub_dropWhile_spc m0 m' hm0 m.reverse
  rw [pystrip, hstepR (stripL h)]
  exact containsSub_dropWhile_spc k0 k' hk0 h

theorem toNat_charOfNat (n : Nat) (h : Nat.isValidChar n) : (Char.ofNat n).toNat = n := by
  simp only [Char.ofNat, h, dif_pos]
  rfl

theorem isSpc_gt32 (c : Char) (h : 32 < c.toNat) : isSpc c = false := by
  by_contra hc
  have hc2 : isSpc c = true := by
    revert hc
    cases isSpc c <;> simp
  have hmem :
      ((((c = ' ' ∨ c = '\t') ∨ c = '\n') ∨ c = '\r') ∨ c = '\x0B') ∨ c = '\x0C' := by
    simpa [isSpc] using hc2
  rcases hmem with (((((h1 | h1) | h1) | h1) | h1) | h1) <;>
    (subst h1; exact absurd h (by decide))

theorem isSpc_toLower (c : Char) : isSpc (Char.toLower c) = isSpc c := by
  by_cases h : 65 ≤ c.toNat ∧ c.toNat ≤ 90
  · have hv : Nat.isValidChar (c.toNat + 32) := Or.inl (by omega)
    have htl : Char.toLower c = Char.ofNat (c.toNat + 32) := by
      simp only [Char.toLower]
      rw [if_pos h]
    have ht1 : (Char.ofNat (c.toNat + 32)).toNat = c.toNat + 32 := toNat_charOfNat _ hv
    rw [htl, isSpc_gt32 _ (by rw [ht1]; omega), isSpc_gt32 c (by omega)]
  · have htl : Char.toLower c = c := by
      simp only [Char.toLower]
      rw [if_neg h]
    rw [htl]

theorem pystrip_map_toLower (l : List Char) :
    pystrip (l.map Char.toLower) = (pystrip l).map Char.toLower := by
  have hfun : (isSpc ∘ Char.toLower : Char → Bool) = isSpc := funext isSpc_toLower
  rw [pystrip, pystrip, stripL, stripL, List.dropWhile_map, hfun]
  rw [stripR, stripR, List.rdropWhile, List.rdropWhile, ← List.map_reverse,
    List.dropWhile_map, hfun, ← List.map_reverse]

theorem containsSub_lower_pystrip (k : List Char) (hne : k ≠ [])
    (hns : k.all (fun c => !isSpc c) = true) (l : List Char) :
    containsSub k ((pystrip l).map Char.toLower) =
      containsSub k (l.map Char.toLower) := by
  rw [← pystrip_map_toLower, containsSub_pystrip k hne hns]

theorem any_containsSub_pystrip (ks : List (List Char))
    (hks : ∀ k ∈ ks, k ≠ [] ∧ k.all (fun c => !isSpc c) = true) (l : List Char) :
    (ks.any fun k => containsSub k ((pystrip l).map Char.toLower)) =
      (ks.any fun k => containsSub k (l.map Char.toLower)) := by
  induction ks with
  | nil => rfl
  | cons k ks ih =>
    simp only [List.any_cons]
    rw [containsSub_lower_pystrip k (hks k (by simp)).1 (hks k (by simp)).2]
    rw [ih (fun x hx => hks x (by simp [hx]))]

theorem keyword_rule_eq (r : List Char) :
    (singleLineKeywords.any fun x =>
      containsSub x ((pystrip ((splitNL (pystrip r)).getLastD [])).map Char.toLower)) =
    (match lastNonEmptyLine r with
      | some l => singleLineKeywords.any (fun k => containsSub k (l.map Char.toLower))
      | none => false) := by
  have hkey := key_lastline r
  have hprops : ∀ k ∈ singleLineKeywords,
      k ≠ [] ∧ k.all (fun c => !isSpc c) = true := by decide
  cases hL : lastNonEmptyLine r with
  | none =>
    have hfe : (splitNL r).filter (fun l => !(l.all isSpc)) = [] := by
      rw [lastNonEmptyLine] at hL
      exact List.getLast?_eq_none_iff.mp hL
    rw [hfe] at hkey
    rw [show (([] : List (List Char)).getLastD []) = ([] : List Char) from rfl,
      pystrip_nil] at hkey
    rw [hkey]
    decide
  | some l =>
    have hld : ((splitNL r).filter (fun l => !(l.all isSpc))).getLastD [] = l := by
      rw [List.getLastD_eq_getLast?]
      rw [lastNonEmptyLine] at hL
      rw [hL]
      rfl
    rw [hld] at hkey
    rw [hkey]
    show (singleLineKeywords.any fun x =>
        containsSub x ((pystrip l).map Char.toLower)) =
      (singleLineKeywords.any fun k => containsSub k (l.map Char.toLower))
    exact any_containsSub_pystrip singleLineKeywords hprops l

/-! ### Claim C6: the response completion detector -/

/-- C6: for every accumulated response buffer, the completion detector
`_is_response_complete` judges the buffer complete by exactly the claimed
prioritized rule set: any fixed multi-line terminal marker anywhere in the
buffer (case-insensitively); otherwise a fixed single-line value keyword
contained in the last non-empty (that is, not whitespace-only) line
(case-insensitively); otherwise a trailing line terminator with stripped
content of length greater than 3; and an empty buffer is never complete. -/
theorem c6_response_completion_detector (r : List Char) :
    is_response_complete r = responseCompleteSpec r := by
  rw [is_response_complete, responseCompleteSpec, keyword_rule_eq r]

end OreiMatrix
